import Mathlib

/-!
# Verification of the cluv timeline/compilation core

Shallow embedding of the cluv non-linear editing core and proofs about it.

Source files embedded (paths relative to the repository root):
* `src/ffcut/segment.rs` — `TimeRange`, `Position`, `Segment` and the
  trim/split algebra.
* `kiva-cut/src/cut/{mod,material,track,stage}.rs` — the session data model
  and `EditSession::validate` (the `src/ffcut` and `src/edit` crates re-use
  structurally identical twins of these types; the twin files present in the
  repository are the translation source).
* `src/edit/protocol.rs` — the protocol document and the
  `from_session`/`to_session` conversions.
* `src/ffcut/editor.rs` — `Editor::fix` (metadata enrichment) and
  `Editor::export` (the graph compiler).

Modelling conventions:
* `u32` is `ℕ`; additions and subtractions performed by Rust on `u32` are
  wrapped explicitly modulo `2^32` (`wadd`, release-mode wrapping semantics).
* `f32`/`f64` arithmetic on values originating from integers and decimal
  literals is modelled exactly over `ℚ`; a Rust `as u32` cast of such a value
  is the saturating truncation `ratToU32`.
* Fallible functions return `Except CutError`.
* Numeric fields that Rust keeps as strings and parses at the use site
  (probe durations, bitrates, sample rates) are modelled as the parsed
  value; strings that fail to parse are modelled as `none`.
-/

deriving instance DecidableEq for Except

namespace Cluv

/-- `2^32`, the modulus of `u32` arithmetic. -/
def U32 : ℕ := 4294967296

/-- Wrapping `u32` addition (Rust release-mode `+` on `u32`). -/
def wadd (a b : ℕ) : ℕ := (a + b) % U32

/-- Saturating cast of a (modelled) float to `u32`: truncate toward zero and
clamp into `[0, u32::MAX]` — the semantics of Rust `as u32` on a float. -/
def ratToU32 (q : ℚ) : ℕ := min (max ⌊q⌋ 0).toNat (U32 - 1)

/-- Error type: every failure in the embedded code paths is constructed via
`CluvError::invalid_params`/`CutError::invalid_params`, carrying a message.
Quote characters that appear in the Rust format strings are omitted. -/
inductive CutError where
  | invalidParams (msg : String)
deriving DecidableEq, Repr

/-- `TimeRange` — `src/ffcut/segment.rs`. Start and duration in ms (`u32`). -/
structure TimeRange where
  start : ℕ
  duration : ℕ
deriving DecidableEq, Repr

/-- `TimeRange::end` — `start + duration` in wrapping `u32` arithmetic. -/
def TimeRange.endTime (r : TimeRange) : ℕ := wadd r.start r.duration

/-- `TimeRange::contains`: `time >= self.start && time < self.end()`. -/
def TimeRange.containsTime (r : TimeRange) (t : ℕ) : Prop :=
  r.start ≤ t ∧ t < r.endTime

instance (r : TimeRange) (t : ℕ) : Decidable (r.containsTime t) :=
  inferInstanceAs (Decidable (_ ∧ _))

/-- `Position` — `src/ffcut/segment.rs` (`i32` pixel coordinates). -/
structure Position where
  x : ℤ
  y : ℤ
deriving DecidableEq, Repr

/-- `Dimension` — `kiva-cut/src/cut/material.rs` (`i32` pixel sizes). -/
structure Dimension where
  width : ℤ
  height : ℤ
deriving DecidableEq, Repr

/-- `SegmentType` — `src/ffcut/segment.rs`. -/
inductive SegmentType where
  | video
  | audio
  | image
  | text
  | subtitle
deriving DecidableEq, Repr

/-- `Segment` — `src/ffcut/segment.rs`. -/
structure Segment where
  id : String
  segment_type : SegmentType
  material_id : String
  target_timerange : TimeRange
  source_timerange : TimeRange
  scale : Option Dimension
  position : Option Position
deriving DecidableEq, Repr

namespace Segment

/-- `Segment::target_end_time` (wrapping `u32` addition). -/
def targetEndTime (s : Segment) : ℕ := s.target_timerange.endTime

/-- `Segment::contains_time`: `time >= start && time < target_end_time()`. -/
def containsTime (s : Segment) (t : ℕ) : Prop :=
  s.target_timerange.start ≤ t ∧ t < s.targetEndTime

instance (s : Segment) (t : ℕ) : Decidable (s.containsTime t) :=
  inferInstanceAs (Decidable (_ ∧ _))

/-- `Segment::playback_speed`: `source.duration / target.duration` as `f64`
(modelled exactly over `ℚ`), `1.0` when the target duration is `0`. -/
def playbackSpeed (s : Segment) : ℚ :=
  if s.target_timerange.duration = 0 then 1
  else (s.source_timerange.duration : ℚ) / (s.target_timerange.duration : ℚ)

/-- `Segment::needs_speed_adjustment`. -/
def needsSpeedAdjustment (s : Segment) : Prop :=
  s.source_timerange.duration ≠ s.target_timerange.duration

instance (s : Segment) : Decidable s.needsSpeedAdjustment :=
  inferInstanceAs (Decidable (_ ≠ _))

end Segment

/-- `(amount as f64 * speed) as u32`, where `speed = srcDur / tgtDur` (or `1.0`
when `tgtDur = 0`). For non-negative operands the exact-rational truncation is
natural-number division; the saturating cast clamps at `u32::MAX`. -/
def speedScaled (amount srcDur tgtDur : ℕ) : ℕ :=
  if tgtDur = 0 then min amount (U32 - 1)
  else min (amount * srcDur / tgtDur) (U32 - 1)

namespace Segment

/-- `Segment::trim_start` — `src/ffcut/segment.rs` lines 259-277. The
playback speed used for the source trim is computed *after* the target
range has been shrunk, exactly as the Rust statement order does. -/
def trimStart (s : Segment) (amount : ℕ) : Segment :=
  if s.target_timerange.duration ≤ amount then
    { s with target_timerange := { s.target_timerange with duration := 1 } }
  else
    let tgt : TimeRange :=
      { start := wadd s.target_timerange.start amount,
        duration := s.target_timerange.duration - amount }
    let srcTrim := speedScaled amount s.source_timerange.duration tgt.duration
    { s with
      target_timerange := tgt,
      source_timerange :=
        { start := wadd s.source_timerange.start srcTrim,
          duration :=
            if srcTrim < s.source_timerange.duration then
              s.source_timerange.duration - srcTrim
            else 1 } }

/-- `Segment::trim_end` — `src/ffcut/segment.rs` lines 280-296. -/
def trimEnd (s : Segment) (amount : ℕ) : Segment :=
  if s.target_timerange.duration ≤ amount then
    { s with target_timerange := { s.target_timerange with duration := 1 } }
  else
    let tgt : TimeRange :=
      { s.target_timerange with duration := s.target_timerange.duration - amount }
    let srcTrim := speedScaled amount s.source_timerange.duration tgt.duration
    { s with
      target_timerange := tgt,
      source_timerange :=
        { s.source_timerange with
          duration :=
            if srcTrim < s.source_timerange.duration then
              s.source_timerange.duration - srcTrim
            else 1 } }

/-- `Segment::split_at` — `src/ffcut/segment.rs` lines 299-348. -/
def splitAt (s : Segment) (time : ℕ) : Except CutError (Segment × Segment) :=
  if s.containsTime time then
    let offset := time - s.target_timerange.start
    let firstDuration := offset
    let secondDuration := s.target_timerange.duration - offset
    let sourceOffset :=
      speedScaled offset s.source_timerange.duration s.target_timerange.duration
    let first : Segment :=
      { id := s.id ++ "_part1",
        segment_type := s.segment_type,
        material_id := s.material_id,
        target_timerange := { start := s.target_timerange.start, duration := firstDuration },
        source_timerange := { start := s.source_timerange.start, duration := sourceOffset },
        scale := s.scale,
        position := s.position }
    let second : Segment :=
      { id := s.id ++ "_part2",
        segment_type := s.segment_type,
        material_id := s.material_id,
        target_timerange := { start := time, duration := secondDuration },
        source_timerange :=
          { start := wadd s.source_timerange.start sourceOffset,
            duration := s.source_timerange.duration - sourceOffset },
        scale := s.scale,
        position := s.position }
    .ok (first, second)
  else
    .error (.invalidParams "Split time is not within segment")

/-- `Segment::validate` — `src/ffcut/segment.rs` lines 208-239. -/
def validate (s : Segment) : Except CutError Unit :=
  if s.id = "" then .error (.invalidParams "Segment ID cannot be empty")
  else if s.material_id = "" then .error (.invalidParams "Material ID cannot be empty")
  else if s.target_timerange.duration = 0 then
    .error (.invalidParams "Target duration must be positive")
  else if s.source_timerange.duration = 0 then
    .error (.invalidParams "Source duration must be positive")
  else
    match s.scale with
    | some sc =>
        if sc.width ≤ 0 ∨ sc.height ≤ 0 then
          .error (.invalidParams "Scale dimensions must be positive")
        else .ok ()
    | none => .ok ()

end Segment

/-- `Stage` — `kiva-cut/src/cut/stage.rs` (`i32` dimensions). -/
structure Stage where
  width : ℤ
  height : ℤ
deriving DecidableEq, Repr

/-- `VideoMaterial` — `kiva-cut/src/cut/material.rs`. `fps` is an `f32`,
modelled over `ℚ`. -/
structure VideoMaterial where
  id : String
  src : String
  dimension : Dimension
  duration : Option ℕ
  fps : Option ℚ
  codec : Option String
  bitrate : Option ℕ
deriving DecidableEq, Repr

/-- `AudioMaterial` — `kiva-cut/src/cut/material.rs`. -/
structure AudioMaterial where
  id : String
  src : String
  duration : Option ℕ
  sample_rate : Option ℕ
  channels : Option ℕ
  codec : Option String
  bitrate : Option ℕ
deriving DecidableEq, Repr

/-- `ImageMaterial` — `kiva-cut/src/cut/material.rs`. -/
structure ImageMaterial where
  id : String
  src : String
  dimension : Dimension
  format : Option String
deriving DecidableEq, Repr

/-- `Material` — `kiva-cut/src/cut/material.rs`, a closed tagged union. -/
inductive Material where
  | video (v : VideoMaterial)
  | audio (a : AudioMaterial)
  | image (i : ImageMaterial)
deriving DecidableEq, Repr

namespace Material

/-- `Material::id`. -/
def id : Material → String
  | .video v => v.id
  | .audio a => a.id
  | .image i => i.id

/-- `Material::src`. -/
def src : Material → String
  | .video v => v.src
  | .audio a => a.src
  | .image i => i.src

/-- `Material::duration` (milliseconds when present). -/
def duration : Material → Option ℕ
  | .video v => v.duration
  | .audio a => a.duration
  | .image _ => none

end Material

/-- `VideoMaterial::validate` — `kiva-cut/src/cut/material.rs`. -/
def VideoMaterial.validate (v : VideoMaterial) : Except CutError Unit :=
  if v.dimension.width ≤ 0 then .error (.invalidParams "Video width must be positive")
  else if v.dimension.height ≤ 0 then .error (.invalidParams "Video height must be positive")
  else
    match v.fps with
    | some fps =>
        if fps ≤ 0 then .error (.invalidParams "Video FPS must be positive") else .ok ()
    | none => .ok ()

/-- `AudioMaterial::validate` — `kiva-cut/src/cut/material.rs`. -/
def AudioMaterial.validate (a : AudioMaterial) : Except CutError Unit := do
  if let some sr := a.sample_rate then
    if sr = 0 then throw (.invalidParams "Sample rate must be positive")
  if let some ch := a.channels then
    if ch = 0 then throw (.invalidParams "Channel count must be positive")

/-- `ImageMaterial::validate` — `kiva-cut/src/cut/material.rs`. -/
def ImageMaterial.validate (i : ImageMaterial) : Except CutError Unit :=
  if i.dimension.width ≤ 0 then .error (.invalidParams "Image width must be positive")
  else if i.dimension.height ≤ 0 then .error (.invalidParams "Image height must be positive")
  else .ok ()

/-- `Material::validate` — `kiva-cut/src/cut/material.rs` lines 144-161:
id non-empty, src non-empty, then the variant-specific check. -/
def Material.validate (m : Material) : Except CutError Unit :=
  if m.id = "" then .error (.invalidParams "Material ID cannot be empty")
  else if m.src = "" then .error (.invalidParams "Material source cannot be empty")
  else
    match m with
    | .video v => v.validate
    | .audio a => a.validate
    | .image i => i.validate

/-- `TrackType` — `kiva-cut/src/cut/track.rs`. -/
inductive TrackType where
  | video
  | audio
  | image
  | text
  | subtitle
deriving DecidableEq, Repr

/-- `Track` — `kiva-cut/src/cut/track.rs`. `volume` and `opacity` are `f32`
fields, modelled over `ℚ`. -/
structure Track where
  id : String
  track_type : TrackType
  segments : List Segment
  enabled : Bool
  muted : Bool
  volume : ℚ
  opacity : ℚ
  blend_mode : Option String
deriving DecidableEq, Repr

namespace Track

/-- `Track::new`: empty segment list, enabled, unmuted, volume 1.0,
opacity 1.0, no blend mode. -/
def new (id : String) (tt : TrackType) : Track :=
  { id := id, track_type := tt, segments := [], enabled := true, muted := false,
    volume := 1, opacity := 1, blend_mode := none }

/-- `Track::duration`: max over segments of `start + duration` (wrapping),
`0` for an empty track. -/
def duration (t : Track) : ℕ :=
  (t.segments.map fun s => wadd s.target_timerange.start s.target_timerange.duration).foldr
    max 0

/-- Per-segment loop of `Track::validate`: each segment's own validation,
failures wrapped with the segment's index
(`format!("Segment {} validation failed: {}", i, e)`). -/
def validateSegmentsFrom (i : ℕ) : List Segment → Except CutError Unit
  | [] => .ok ()
  | sg :: rest =>
      match sg.validate with
      | .error (.invalidParams m) =>
          .error (.invalidParams s!"Segment {i} validation failed: {m}")
      | .ok () => validateSegmentsFrom (i + 1) rest

/-- `Track::validate` — `kiva-cut/src/cut/track.rs` lines 226-253: id
non-empty, volume in `[0,1]`, opacity in `[0,1]`, then every segment. -/
def validate (t : Track) : Except CutError Unit :=
  if t.id = "" then .error (.invalidParams "Track ID cannot be empty")
  else if ¬(0 ≤ t.volume ∧ t.volume ≤ 1) then
    .error (.invalidParams "Volume must be between 0.0 and 1.0")
  else if ¬(0 ≤ t.opacity ∧ t.opacity ≤ 1) then
    .error (.invalidParams "Opacity must be between 0.0 and 1.0")
  else validateSegmentsFrom 0 t.segments

end Track

/-- `EditSession` — `kiva-cut/src/cut/mod.rs`. -/
structure EditSession where
  stage : Stage
  materials : List Material
  tracks : List Track
deriving DecidableEq, Repr

namespace EditSession

/-- `EditSession::get_material`: first material with the given id. -/
def getMaterial (s : EditSession) (id : String) : Option Material :=
  s.materials.find? fun m => m.id == id

/-- `EditSession::get_track`: first track with the given id. -/
def getTrack (s : EditSession) (id : String) : Option Track :=
  s.tracks.find? fun t => t.id == id

/-- Materials loop of `EditSession::validate`. -/
def validateMaterials : List Material → Except CutError Unit
  | [] => .ok ()
  | m :: rest => do
      m.validate
      validateMaterials rest

/-- Reference check inside the per-track loop of `EditSession::validate`:
every segment's `material_id` must resolve
(`format!("Material '{}' not found", id)`, quotes omitted). -/
def checkSegmentRefs (s : EditSession) : List Segment → Except CutError Unit
  | [] => .ok ()
  | sg :: rest =>
      if (s.getMaterial sg.material_id).isNone then
        .error (.invalidParams s!"Material {sg.material_id} not found")
      else checkSegmentRefs s rest

/-- Per-track loop of `EditSession::validate`: for each track in storage
order, the track's own validation and then that track's segment references,
before moving on to the next track. -/
def validateTracks (s : EditSession) : List Track → Except CutError Unit
  | [] => .ok ()
  | t :: rest => do
      t.validate
      checkSegmentRefs s t.segments
      validateTracks s rest

/-- `EditSession::validate` — `kiva-cut/src/cut/mod.rs` lines 75-104. -/
def validate (s : EditSession) : Except CutError Unit :=
  if s.stage.width ≤ 0 ∨ s.stage.height ≤ 0 then
    .error (.invalidParams "Stage dimensions must be positive")
  else do
    validateMaterials s.materials
    validateTracks s s.tracks

/-- `EditSession::total_duration`: max over tracks of `Track::duration`. -/
def totalDuration (s : EditSession) : ℕ :=
  (s.tracks.map Track.duration).foldr max 0

/-- `EditSession::video_tracks`: tracks of type video, in storage order. -/
def videoTracks (s : EditSession) : List Track :=
  s.tracks.filter fun t => t.track_type == TrackType.video

/-- `EditSession::audio_tracks`: tracks of type audio, in storage order. -/
def audioTracks (s : EditSession) : List Track :=
  s.tracks.filter fun t => t.track_type == TrackType.audio

end EditSession

/-! ## Protocol — `src/edit/protocol.rs`

The `edit` module's `Material`/`Track`/`Segment`/`Stage` types are the same
structural twins embedded above; `Track::new` supplies the default playback
attributes when a track is reconstructed from the protocol. -/

/-- `StageConfig` — `src/edit/protocol.rs`. -/
structure StageConfig where
  width : ℤ
  height : ℤ
deriving DecidableEq, Repr

/-- `DimensionProto` — `src/edit/protocol.rs`. -/
structure DimensionProto where
  width : ℤ
  height : ℤ
deriving DecidableEq, Repr

/-- `VideoMaterialProto` — `src/edit/protocol.rs`. -/
structure VideoMaterialProto where
  id : String
  src : String
  dimension : DimensionProto
  duration : Option ℕ
  fps : Option ℚ
  codec : Option String
  bitrate : Option ℕ
deriving DecidableEq, Repr

/-- `ImageMaterialProto` — `src/edit/protocol.rs`. -/
structure ImageMaterialProto where
  id : String
  src : String
  dimension : DimensionProto
  format : Option String
deriving DecidableEq, Repr

/-- `AudioMaterialProto` — `src/edit/protocol.rs`. -/
structure AudioMaterialProto where
  id : String
  src : String
  duration : Option ℕ
  sample_rate : Option ℕ
  channels : Option ℕ
  codec : Option String
  bitrate : Option ℕ
deriving DecidableEq, Repr

/-- `Materials` — `src/edit/protocol.rs`: per-kind material lists. -/
structure Materials where
  videos : List VideoMaterialProto
  images : List ImageMaterialProto
  audios : List AudioMaterialProto
deriving DecidableEq, Repr

/-- `TimeRangeProto` — `src/edit/protocol.rs`. -/
structure TimeRangeProto where
  start : ℕ
  duration : ℕ
deriving DecidableEq, Repr

/-- `ScaleProto` — `src/edit/protocol.rs`. -/
structure ScaleProto where
  width : ℤ
  height : ℤ
deriving DecidableEq, Repr

/-- `PositionProto` — `src/edit/protocol.rs`. -/
structure PositionProto where
  x : ℤ
  y : ℤ
deriving DecidableEq, Repr

/-- `ProtocolSegment` — `src/edit/protocol.rs`. -/
structure ProtocolSegment where
  id : String
  segment_type : String
  material_id : String
  target_timerange : TimeRangeProto
  source_timerange : TimeRangeProto
  scale : Option ScaleProto
  position : Option PositionProto
deriving DecidableEq, Repr

/-- `ProtocolTrack` — `src/edit/protocol.rs`. -/
structure ProtocolTrack where
  id : String
  track_type : String
  segments : List ProtocolSegment
deriving DecidableEq, Repr

/-- `CutProtocol` — `src/edit/protocol.rs`. -/
structure CutProtocol where
  stage : StageConfig
  materials : Materials
  tracks : List ProtocolTrack
deriving DecidableEq, Repr

/-- `Display for SegmentType` — the protocol type-tag strings. -/
def SegmentType.toTag : SegmentType → String
  | .video => "video"
  | .audio => "audio"
  | .image => "image"
  | .text => "text"
  | .subtitle => "subtitle"

/-- `Display for TrackType` — the protocol type-tag strings. -/
def TrackType.toTag : TrackType → String
  | .video => "video"
  | .audio => "audio"
  | .image => "image"
  | .text => "text"
  | .subtitle => "subtitle"

namespace CutProtocol

/-- Material push loop of `CutProtocol::from_session`: each material is
appended to the per-kind list matching its variant. -/
def pushMaterial (ms : Materials) : Material → Materials
  | .video v =>
      { ms with
        videos := ms.videos ++
          [{ id := v.id, src := v.src,
             dimension := { width := v.dimension.width, height := v.dimension.height },
             duration := v.duration, fps := v.fps, codec := v.codec, bitrate := v.bitrate }] }
  | .audio a =>
      { ms with
        audios := ms.audios ++
          [{ id := a.id, src := a.src, duration := a.duration,
             sample_rate := a.sample_rate, channels := a.channels,
             codec := a.codec, bitrate := a.bitrate }] }
  | .image i =>
      { ms with
        images := ms.images ++
          [{ id := i.id, src := i.src,
             dimension := { width := i.dimension.width, height := i.dimension.height },
             format := i.format }] }

/-- Segment conversion inside `CutProtocol::from_session`. -/
def protoOfSegment (sg : Segment) : ProtocolSegment :=
  { id := sg.id,
    segment_type := sg.segment_type.toTag,
    material_id := sg.material_id,
    target_timerange :=
      { start := sg.target_timerange.start, duration := sg.target_timerange.duration },
    source_timerange :=
      { start := sg.source_timerange.start, duration := sg.source_timerange.duration },
    scale := sg.scale.map fun sc => { width := sc.width, height := sc.height },
    position := sg.position.map fun p => { x := p.x, y := p.y } }

/-- Track conversion inside `CutProtocol::from_session`. -/
def protoOfTrack (t : Track) : ProtocolTrack :=
  { id := t.id, track_type := t.track_type.toTag,
    segments := t.segments.map protoOfSegment }

/-- `CutProtocol::from_session` — `src/edit/protocol.rs` lines 209-290. -/
def from_session (s : EditSession) : CutProtocol :=
  { stage := { width := s.stage.width, height := s.stage.height },
    materials := s.materials.foldl pushMaterial { videos := [], images := [], audios := [] },
    tracks := s.tracks.map protoOfTrack }

/-- Track-type tag parsing in `CutProtocol::to_session`; an unknown tag is a
hard error. -/
def parseTrackType (ty : String) : Except CutError TrackType :=
  if ty = "video" then .ok .video
  else if ty = "audio" then .ok .audio
  else if ty = "image" then .ok .image
  else if ty = "text" then .ok .text
  else if ty = "subtitle" then .ok .subtitle
  else .error (.invalidParams s!"Unknown track type: {ty}")

/-- Segment-type tag parsing in `CutProtocol::to_session`. -/
def parseSegmentType (ty : String) : Except CutError SegmentType :=
  if ty = "video" then .ok .video
  else if ty = "audio" then .ok .audio
  else if ty = "image" then .ok .image
  else if ty = "text" then .ok .text
  else if ty = "subtitle" then .ok .subtitle
  else .error (.invalidParams s!"Unknown segment type: {ty}")

/-- Segment reconstruction inside `CutProtocol::to_session`. -/
def segmentOfProto (ps : ProtocolSegment) : Except CutError Segment := do
  let st ← parseSegmentType ps.segment_type
  .ok { id := ps.id,
        segment_type := st,
        material_id := ps.material_id,
        target_timerange :=
          { start := ps.target_timerange.start, duration := ps.target_timerange.duration },
        source_timerange :=
          { start := ps.source_timerange.start, duration := ps.source_timerange.duration },
        scale := ps.scale.map fun sc => { width := sc.width, height := sc.height },
        position := ps.position.map fun p => { x := p.x, y := p.y } }

/-- Segment loop of `CutProtocol::to_session`. -/
def segmentsOfProto : List ProtocolSegment → Except CutError (List Segment)
  | [] => .ok []
  | ps :: rest => do
      let sg ← segmentOfProto ps
      let tail ← segmentsOfProto rest
      .ok (sg :: tail)

/-- Track reconstruction inside `CutProtocol::to_session`: `Track::new`
(default playback attributes) followed by `add_segment` for each segment. -/
def trackOfProto (pt : ProtocolTrack) : Except CutError Track := do
  let tt ← parseTrackType pt.track_type
  let segs ← segmentsOfProto pt.segments
  .ok { Track.new pt.id tt with segments := segs }

/-- Track loop of `CutProtocol::to_session`. -/
def tracksOfProto : List ProtocolTrack → Except CutError (List Track)
  | [] => .ok []
  | pt :: rest => do
      let t ← trackOfProto pt
      let tail ← tracksOfProto rest
      .ok (t :: tail)

/-- Material reconstruction in `CutProtocol::to_session` (video). -/
def materialOfVideoProto (v : VideoMaterialProto) : Material :=
  .video { id := v.id, src := v.src,
           dimension := { width := v.dimension.width, height := v.dimension.height },
           duration := v.duration, fps := v.fps, codec := v.codec, bitrate := v.bitrate }

/-- Material reconstruction in `CutProtocol::to_session` (audio). -/
def materialOfAudioProto (a : AudioMaterialProto) : Material :=
  .audio { id := a.id, src := a.src, duration := a.duration,
           sample_rate := a.sample_rate, channels := a.channels,
           codec := a.codec, bitrate := a.bitrate }

/-- Material reconstruction in `CutProtocol::to_session` (image). -/
def materialOfImageProto (i : ImageMaterialProto) : Material :=
  .image { id := i.id, src := i.src,
           dimension := { width := i.dimension.width, height := i.dimension.height },
           format := i.format }

/-- `CutProtocol::to_session` — `src/edit/protocol.rs` lines 293-409:
materials are rebuilt videos first, then audios, then images; tracks in
order, failing on any unknown type tag. -/
def to_session (p : CutProtocol) : Except CutError EditSession := do
  let tracks ← tracksOfProto p.tracks
  .ok { stage := { width := p.stage.width, height := p.stage.height },
        materials :=
          p.materials.videos.map materialOfVideoProto ++
          p.materials.audios.map materialOfAudioProto ++
          p.materials.images.map materialOfImageProto,
        tracks := tracks }

end CutProtocol

/-! ## Material resolver — `Editor::fix`, `src/ffcut/editor.rs` lines 159-319

The probe response types are from `src/ffprobe.rs`. Numeric fields that the
probe reports as strings and that `fix` parses at the use site
(`format.duration` via `parse::<f32>()`, `bit_rate` via `parse::<u32>()`,
`sample_rate` via `parse::<u32>()`, `r_frame_rate` as `"num/den"` split and
parsed componentwise) are modelled as the parsed values; a string that fails
to parse is modelled as `none`. -/

/-- `StreamInfo` — `src/ffprobe.rs` (the fields read by `Editor::fix`). -/
structure StreamInfo where
  codec_type : Option String
  width : Option ℤ
  height : Option ℤ
  r_frame_rate : Option (ℚ × ℚ)
  codec_name : Option String
  bit_rate : Option ℕ
  sample_rate : Option ℕ
  channels : Option ℤ
deriving DecidableEq, Repr

/-- `FormatInfo` — `src/ffprobe.rs` (container duration in seconds). -/
structure FormatInfo where
  duration : Option ℚ
deriving DecidableEq, Repr

/-- `MediaInfo` — `src/ffprobe.rs`. -/
structure MediaInfo where
  streams : List StreamInfo
  format : Option FormatInfo
deriving DecidableEq, Repr

/-- `Editor::parse_fraction_to_float` on an already-split `"num/den"` pair:
succeeds with `num/den` when the denominator is non-zero. -/
def parseFractionToFloat (num den : ℚ) : Except CutError ℚ :=
  if den ≠ 0 then .ok (num / den)
  else .error (.invalidParams "Invalid fraction format")

/-- The probe-duration fill shared by the video and audio arms of
`Editor::fix`: `(duration_seconds * 1000.0) as u32`. -/
def durationMsOfSeconds (secs : ℚ) : ℕ := ratToU32 (secs * 1000)

/-- Stream-derived fills of the video arm of `Editor::fix` (lines 174-211):
dimension, fps, codec and bitrate from the found video stream, each only
when currently absent. -/
def fixVideoStreamFields (v : VideoMaterial) (vs : StreamInfo) : VideoMaterial :=
  let va :=
    if v.dimension.width = 0 ∨ v.dimension.height = 0 then
      match vs.width, vs.height with
      | some w, some h => { v with dimension := { width := w, height := h } }
      | _, _ => v
    else v
  let vb :=
    if va.fps.isNone then
      match vs.r_frame_rate with
      | some (num, den) =>
          match parseFractionToFloat num den with
          | .ok fps => { va with fps := some fps }
          | .error _ => va
      | none => va
    else va
  let vc := if vb.codec.isNone then { vb with codec := vs.codec_name } else vb
  if vc.bitrate.isNone then
    match vs.bit_rate with
    | some br => { vc with bitrate := some (br / 1000) }
    | none => vc
  else vc

/-- Video arm of `Editor::fix` — `src/ffcut/editor.rs` lines 172-223: fill
from the first video stream, then fill the container duration when absent. -/
def fixVideo (v : VideoMaterial) (info : MediaInfo) : VideoMaterial :=
  let v1 :=
    match info.streams.find? (fun st => st.codec_type == some "video") with
    | some vs => fixVideoStreamFields v vs
    | none => v
  if v1.duration.isNone then
    match info.format with
    | some fmt =>
        match fmt.duration with
        | some secs => { v1 with duration := some (durationMsOfSeconds secs) }
        | none => v1
    | none => v1
  else v1

/-- Stream-derived fills of the audio arm of `Editor::fix` (lines 227-261).
`channels as u32` reinterprets the `i32` channel count modulo `2^32`. -/
def fixAudioStreamFields (a : AudioMaterial) (asr : StreamInfo) : AudioMaterial :=
  let aa :=
    if a.sample_rate.isNone then
      match asr.sample_rate with
      | some sr => { a with sample_rate := some sr }
      | none => a
    else a
  let ab :=
    if aa.channels.isNone then
      match asr.channels with
      | some ch => { aa with channels := some ((ch % (U32 : ℤ)).toNat) }
      | none => aa
    else aa
  let ac := if ab.codec.isNone then { ab with codec := asr.codec_name } else ab
  if ac.bitrate.isNone then
    match asr.bit_rate with
    | some br => { ac with bitrate := some (br / 1000) }
    | none => ac
  else ac

/-- Audio arm of `Editor::fix` — `src/ffcut/editor.rs` lines 225-273. -/
def fixAudio (a : AudioMaterial) (info : MediaInfo) : AudioMaterial :=
  let a1 :=
    match info.streams.find? (fun st => st.codec_type == some "audio") with
    | some asr => fixAudioStreamFields a asr
    | none => a
  if a1.duration.isNone then
    match info.format with
    | some fmt =>
        match fmt.duration with
        | some secs => { a1 with duration := some (durationMsOfSeconds secs) }
        | none => a1
    | none => a1
  else a1

/-- Image arm of `Editor::fix` — `src/ffcut/editor.rs` lines 275-297. -/
def fixImage (i : ImageMaterial) (info : MediaInfo) : ImageMaterial :=
  match info.streams.find? (fun st => st.codec_type == some "video") with
  | some vs =>
      let ia :=
        if i.dimension.width = 0 ∨ i.dimension.height = 0 then
          match vs.width, vs.height with
          | some w, some h => { i with dimension := { width := w, height := h } }
          | _, _ => i
        else i
      if ia.format.isNone then { ia with format := vs.codec_name } else ia
  | none => i

/-- Per-material body of `Editor::fix`. -/
def fixMaterial (m : Material) (info : MediaInfo) : Material :=
  match m with
  | .video v => .video (fixVideo v info)
  | .audio a => .audio (fixAudio a info)
  | .image i => .image (fixImage i info)

/-- `Editor::fix` over the session materials: one probe call per material,
awaited sequentially, aborting on the first probe failure. -/
def fixMaterials (probe : String → Except CutError MediaInfo) :
    List Material → Except CutError (List Material)
  | [] => .ok []
  | m :: rest => do
      let info ← probe m.src
      let fixedRest ← fixMaterials probe rest
      .ok (fixMaterial m info :: fixedRest)

/-! ## Graph compiler — `Editor::export`, `src/ffcut/editor.rs` lines 327-509

The graph-builder API used by `export` (`FFmpeg::add_input` returning an
input handle with `.v()`/`.a()` stream selectors, `FFmpeg::add_filter`
appending a node and returning its output stream, and the `Filter`
constructors `color`/`overlay_with_enable`/`atrim`/`atempo`/`anullsrc`) is
absent from the snapshot; it is modelled from the spec: a node list, each
node with a stable kind tag, parameters, ordered input references and an
output reference. Filter parameters that the Rust code renders into
expression strings (`setpts`, the overlay `enable` window, `adelay`) are
kept as their numeric values. -/

/-- Modelled from the spec: a stream reference — the video or audio side of a
bound input, or a filter node's output. -/
inductive StreamRef where
  | vOf (inputIdx : ℕ)
  | aOf (inputIdx : ℕ)
  | fOut (filterIdx : ℕ)
deriving DecidableEq, Repr

/-- Modelled from the spec: the node kinds emitted by the compiler
(`scale`/`setpts`/`overlay`/`atrim`/`asetpts`/`volume`/`atempo`/`adelay`/
`amix`/`anullsrc`/`color`), each carrying the parameters the Rust call sites
supply. `setptsSpeedInv` is `setpts("1/{speed}*PTS")`; `setptsShift` is
`setpts("PTS+{start}/TB")`; `overlayEnable` carries the position and the
`enable='between(t,a,b)'` window; `asetptsReset` is
`asetpts("PTS-STARTPTS")`. -/
inductive FilterKind where
  | color (width height : ℤ) (durationSec : ℚ)
  | scale (width height : ℤ)
  | setptsSpeedInv (speed : ℚ)
  | setptsShift (startSec : ℚ)
  | overlayEnable (x y : ℤ) (winStart winEnd : ℚ)
  | atrim (startSec durationSec : ℚ)
  | asetptsReset
  | volume (factor : ℚ)
  | atempo (speed : ℚ)
  | adelay (ms : ℤ)
  | amix (inputs : ℤ)
  | anullsrc (durationSec : ℚ)
deriving DecidableEq, Repr

/-- Modelled from the spec: a graph node — kind plus ordered input stream
references; its output is `StreamRef.fOut` of its position. -/
structure FilterNode where
  kind : FilterKind
  inputs : List StreamRef
deriving DecidableEq, Repr

/-- `Input::with_time(start, duration, path)` — `src/ffmpeg/input.rs` line
36: an external input bound with a seek offset and read duration (seconds). -/
structure InputBinding where
  startSec : ℚ
  durationSec : ℚ
  path : String
deriving DecidableEq, Repr

/-- Modelled from the spec: the growing compilation graph. -/
structure FFmpegGraph where
  inputs : List InputBinding
  filters : List FilterNode
deriving DecidableEq, Repr

/-- Modelled from the spec: `FFmpeg::add_input` — bind an external input,
returning its index. -/
def FFmpegGraph.addInput (g : FFmpegGraph) (b : InputBinding) : FFmpegGraph × ℕ :=
  ({ g with inputs := g.inputs ++ [b] }, g.inputs.length)

/-- Modelled from the spec: `FFmpeg::add_filter` — append a node with the
given ordered input references, returning its output stream. -/
def FFmpegGraph.addFilter (g : FFmpegGraph) (k : FilterKind) (ins : List StreamRef) :
    FFmpegGraph × StreamRef :=
  ({ g with filters := g.filters ++ [{ kind := k, inputs := ins }] },
   .fOut g.filters.length)

/-- Modelled from the spec: `FFmpeg::add_filter_without_inputs`. -/
def FFmpegGraph.addFilterNoInputs (g : FFmpegGraph) (k : FilterKind) :
    FFmpegGraph × StreamRef :=
  g.addFilter k []

/-- `ExportType` — the `src/ffcut` protocol module is absent from the
snapshot; the variants are exactly those matched by `Editor::export`. -/
inductive ExportType where
  | video
  | audio
deriving DecidableEq, Repr

/-- `ExportOptions` — `src/ffcut/editor.rs` lines 37-54. -/
structure ExportOptions where
  output_file : String
  export_type : ExportType
  video_codec : Option String
  audio_codec : Option String
  quality : Option ℤ
  video_bitrate : Option ℤ
  audio_bitrate : Option ℤ
  custom_options : List (String × String)
deriving DecidableEq, Repr

/-- `Output` — `src/ffmpeg/output.rs`, restricted to the fields `export`
sets; codecs are kept as their name strings
(`VideoCodec::from`/`AudioCodec::from` on the chosen name). -/
structure Output where
  path : String
  mapped : List StreamRef
  video_codec : Option String
  audio_codec : Option String
  crf : Option ℤ
  video_bitrate : Option ℤ
  audio_bitrate : Option ℤ
  mov_flags : Option String
deriving DecidableEq, Repr

/-- The fully built command handed to the engine: bound inputs, the filter
graph, and the single output mapping (`ffmpeg.run()` itself — the process
invocation — is outside the model). -/
structure FFmpegCommand where
  graph : FFmpegGraph
  output : Output
deriving DecidableEq, Repr

/-- Saturating cast of a (modelled) float to `i32` (`as i32`). -/
def ratToI32 (q : ℚ) : ℤ := max (-2147483648) (min ⌊q⌋ 2147483647)

/-- `material_inputs.get(...)` — the `HashMap` is only ever read through
`get`/`contains_key`, so an insertion-ordered association list is an exact
model. -/
def lookupInput (mi : List (String × ℕ)) (k : String) : Option ℕ :=
  (mi.find? fun p => p.1 == k).map fun p => p.2

/-- Per-segment body of the input-binding loop of `Editor::export` (lines
335-348): bind one input per not-yet-seen `material_id` that resolves,
trimmed to that segment's source range (seconds). -/
def bindSegmentInput (s : EditSession) (acc : FFmpegGraph × List (String × ℕ))
    (sg : Segment) : FFmpegGraph × List (String × ℕ) :=
  let (g, mi) := acc
  if (lookupInput mi sg.material_id).isSome then acc
  else
    match s.getMaterial sg.material_id with
    | some m =>
        let (g2, idx) := g.addInput
          { startSec := (sg.source_timerange.start : ℚ) / 1000,
            durationSec := (sg.source_timerange.duration : ℚ) / 1000,
            path := m.src }
        (g2, mi ++ [(sg.material_id, idx)])
    | none => acc

/-- Input-binding phase of `Editor::export`: all tracks, all segments, in
storage order. -/
def bindInputs (s : EditSession) (g : FFmpegGraph) : FFmpegGraph × List (String × ℕ) :=
  s.tracks.foldl (fun acc t => t.segments.foldl (bindSegmentInput s) acc) (g, [])

/-- Per-segment body of the video loop of `Editor::export` (lines 364-405):
scale (if set), speed `setpts` (if needed), timeline-placement `setpts`,
then overlay onto the running canvas gated by the target window. -/
def videoSegmentChain (mi : List (String × ℕ)) (acc : FFmpegGraph × StreamRef)
    (sg : Segment) : FFmpegGraph × StreamRef :=
  match lookupInput mi sg.material_id with
  | none => acc
  | some idx =>
      let (g, canvas) := acc
      let targetStart : ℚ := (sg.target_timerange.start : ℚ) / 1000
      let targetDuration : ℚ := (sg.target_timerange.duration : ℚ) / 1000
      let fv : StreamRef := .vOf idx
      let (g, fv) :=
        match sg.scale with
        | some sc => g.addFilter (.scale sc.width sc.height) [fv]
        | none => (g, fv)
      let (g, fv) :=
        if sg.needsSpeedAdjustment then
          g.addFilter (.setptsSpeedInv sg.playbackSpeed) [fv]
        else (g, fv)
      let (g, fv) := g.addFilter (.setptsShift targetStart) [fv]
      let x := (sg.position.map Position.x).getD 0
      let y := (sg.position.map Position.y).getD 0
      g.addFilter (.overlayEnable x y targetStart (targetStart + targetDuration)) [canvas, fv]

/-- Per-track body of the video loop: disabled tracks are skipped whole. -/
def videoTrackChain (mi : List (String × ℕ)) (acc : FFmpegGraph × StreamRef)
    (t : Track) : FFmpegGraph × StreamRef :=
  if !t.enabled then acc
  else t.segments.foldl (videoSegmentChain mi) acc

/-- Video phase of `Editor::export` (lines 357-406): the video tracks in
reverse storage order, composing onto the running canvas. -/
def videoPhase (s : EditSession) (mi : List (String × ℕ)) (g : FFmpegGraph)
    (bg : StreamRef) : FFmpegGraph × StreamRef :=
  s.videoTracks.reverse.foldl (videoTrackChain mi) (g, bg)

/-- Per-segment body of the audio loop of `Editor::export` (lines 417-452):
trim + PTS reset (if the source window requires it), tempo (if needed),
delay (if placed after 0). -/
def audioSegmentChain (mi : List (String × ℕ)) (acc : FFmpegGraph × List StreamRef)
    (sg : Segment) : FFmpegGraph × List StreamRef :=
  match lookupInput mi sg.material_id with
  | none => acc
  | some idx =>
      let (g, streams) := acc
      let sourceStart : ℚ := (sg.source_timerange.start : ℚ) / 1000
      let sourceDuration : ℚ := (sg.source_timerange.duration : ℚ) / 1000
      let targetStart : ℚ := (sg.target_timerange.start : ℚ) / 1000
      let targetDuration : ℚ := (sg.target_timerange.duration : ℚ) / 1000
      let fa : StreamRef := .aOf idx
      let (g, fa) :=
        if sourceStart > 0 ∨ sourceDuration ≠ targetDuration then
          let (g, fa) := g.addFilter (.atrim sourceStart sourceDuration) [fa]
          g.addFilter .asetptsReset [fa]
        else (g, fa)
      let (g, fa) :=
        if sg.needsSpeedAdjustment then
          g.addFilter (.atempo sg.playbackSpeed) [fa]
        else (g, fa)
      let (g, fa) :=
        if targetStart > 0 then
          g.addFilter (.adelay (ratToI32 (targetStart * 1000))) [fa]
        else (g, fa)
      (g, streams ++ [fa])

/-- Per-track body of the audio loop: disabled or muted tracks are skipped. -/
def audioTrackChain (mi : List (String × ℕ)) (acc : FFmpegGraph × List StreamRef)
    (t : Track) : FFmpegGraph × List StreamRef :=
  if !t.enabled || t.muted then acc
  else t.segments.foldl (audioSegmentChain mi) acc

/-- Audio phase of `Editor::export` (lines 408-453): the audio tracks in
storage order, collecting one processed stream per segment. -/
def audioPhase (s : EditSession) (mi : List (String × ℕ)) (g : FFmpegGraph) :
    FFmpegGraph × List StreamRef :=
  s.audioTracks.foldl (audioTrackChain mi) (g, [])

/-- Mixing step of `Editor::export` (lines 455-464): zero collected streams —
silence sized to the session duration; one — pass-through; two or more —
a single `amix` over all of them. -/
def mixPhase (s : EditSession) (g : FFmpegGraph) (streams : List StreamRef) :
    FFmpegGraph × StreamRef :=
  match streams with
  | [] => g.addFilterNoInputs (.anullsrc ((s.totalDuration : ℚ) / 1000))
  | [a] => (g, a)
  | _ => g.addFilter (.amix streams.length) streams

/-- The intermediate results of the graph-building part of `Editor::export`. -/
structure CompileResult where
  graph : FFmpegGraph
  finalCanvas : StreamRef
  soundBg : StreamRef
  audioStreams : List StreamRef
deriving DecidableEq, Repr

/-- The graph-building body of `Editor::export` (lines 330-464), in the
statement order of the Rust function: bind inputs, background canvas, video
compositing, audio chains, mix. -/
def compilePipeline (s : EditSession) : CompileResult :=
  let g0 : FFmpegGraph := { inputs := [], filters := [] }
  let b := bindInputs s g0
  let bg := b.1.addFilterNoInputs
    (.color s.stage.width s.stage.height ((s.totalDuration : ℚ) / 1000))
  let v := videoPhase s b.2 bg.1 bg.2
  let a := audioPhase s b.2 v.1
  let m := mixPhase s a.1 a.2
  { graph := m.1, finalCanvas := v.2, soundBg := m.2, audioStreams := a.2 }

/-- The output-mapping tail of `Editor::export` (lines 466-506). -/
def exportOutput (options : ExportOptions) (finalCanvas soundBg : StreamRef) : Output :=
  match options.export_type with
  | .video =>
      { path := options.output_file,
        mapped := [finalCanvas, soundBg],
        video_codec := some (options.video_codec.getD "libx264"),
        audio_codec := some (options.audio_codec.getD "aac"),
        crf := options.quality,
        video_bitrate := options.video_bitrate,
        audio_bitrate := options.audio_bitrate,
        mov_flags := some "faststart" }
  | .audio =>
      { path := options.output_file,
        mapped := [soundBg],
        video_codec := none,
        audio_codec := some (options.audio_codec.getD "mp3"),
        crf := none,
        video_bitrate := none,
        audio_bitrate := options.audio_bitrate,
        mov_flags := none }

/-- The command `Editor::export` builds when validation passes. -/
def mkCommand (s : EditSession) (options : ExportOptions) : FFmpegCommand :=
  let r := compilePipeline s
  { graph := r.graph, output := exportOutput options r.finalCanvas r.soundBg }

/-- `Editor::export` — `src/ffcut/editor.rs` lines 327-509: validate, then
build the graph and the output mapping. The final `ffmpeg.run()` is outside
the model; the built command is returned instead. (`export` is a Lean
keyword, hence the name.) -/
def exportSession (s : EditSession) (options : ExportOptions) :
    Except CutError FFmpegCommand := do
  s.validate
  .ok (mkCommand s options)

/-! ## Specification-level functions used by the theorem statements -/

/-- All segments of the session in track/segment storage order. -/
def allSegments (s : EditSession) : List Segment :=
  s.tracks.flatMap Track.segments

/-- First-occurrence-by-`material_id` subsequence: keeps a segment exactly
when its `material_id` has not been seen before. -/
def firstRefs : List Segment → List String → List Segment
  | [], _ => []
  | sg :: rest, seen =>
      if sg.material_id ∈ seen then firstRefs rest seen
      else sg :: firstRefs rest (sg.material_id :: seen)

/-- The first segment referencing each distinct `material_id`, in
track/segment storage order. -/
def firstMaterialRefs (s : EditSession) : List Segment :=
  firstRefs (allSegments s) []

/-- The input binding `Editor::export` constructs for a segment: the
resolved material's `src`, trimmed to the segment's source range. -/
def inputBindingOf (s : EditSession) (sg : Segment) : Option InputBinding :=
  (s.getMaterial sg.material_id).map fun m =>
    { startSec := (sg.source_timerange.start : ℚ) / 1000,
      durationSec := (sg.source_timerange.duration : ℚ) / 1000,
      path := m.src }

/-- The node kinds of one segment's video chain, in emission order. -/
def segVideoKinds (sg : Segment) : List FilterKind :=
  (match sg.scale with
   | some sc => [.scale sc.width sc.height]
   | none => []) ++
  (if sg.needsSpeedAdjustment then [.setptsSpeedInv sg.playbackSpeed] else []) ++
  [.setptsShift ((sg.target_timerange.start : ℚ) / 1000),
   .overlayEnable ((sg.position.map Position.x).getD 0) ((sg.position.map Position.y).getD 0)
     ((sg.target_timerange.start : ℚ) / 1000)
     ((sg.target_timerange.start : ℚ) / 1000 + (sg.target_timerange.duration : ℚ) / 1000)]

/-- The segments the video phase processes: segments of enabled video
tracks, tracks taken in reverse storage order. -/
def enabledVideoSegmentsRev (s : EditSession) : List Segment :=
  ((s.videoTracks.reverse.filter fun t => t.enabled).map Track.segments).flatten

/-- The node kinds of one segment's audio chain, in emission order. -/
def segAudioKinds (sg : Segment) : List FilterKind :=
  (if (sg.source_timerange.start : ℚ) / 1000 > 0 ∨
      (sg.source_timerange.duration : ℚ) / 1000 ≠ (sg.target_timerange.duration : ℚ) / 1000 then
     [.atrim ((sg.source_timerange.start : ℚ) / 1000) ((sg.source_timerange.duration : ℚ) / 1000),
      .asetptsReset]
   else []) ++
  (if sg.needsSpeedAdjustment then [.atempo sg.playbackSpeed] else []) ++
  (if (sg.target_timerange.start : ℚ) / 1000 > 0 then
     [.adelay (ratToI32 ((sg.target_timerange.start : ℚ) / 1000 * 1000))]
   else [])

/-- The segments the audio phase collects streams for: segments of enabled,
unmuted audio tracks in storage order. -/
def activeAudioSegments (s : EditSession) : List Segment :=
  ((s.audioTracks.filter fun t => t.enabled && !t.muted).map Track.segments).flatten

/-- The node kinds of the mixing step for `n` collected streams. -/
def mixKindsOf (s : EditSession) (n : ℕ) : List FilterKind :=
  if n = 0 then [.anullsrc ((s.totalDuration : ℚ) / 1000)]
  else if n = 1 then []
  else [.amix (n : ℤ)]

/-- The node kinds following the background canvas node, in emission order:
video chains over the reversed enabled video tracks, then audio chains,
then the mixing step. -/
def tailKindsSpec (s : EditSession) : List FilterKind :=
  (enabledVideoSegmentsRev s).flatMap segVideoKinds ++
  (activeAudioSegments s).flatMap segAudioKinds ++
  mixKindsOf s (activeAudioSegments s).length

/-- Kind testers used by the claim statements. -/
def FilterKind.isVolume : FilterKind → Bool
  | .volume _ => true
  | _ => false

/-- `amix` kind tester. -/
def FilterKind.isAmix : FilterKind → Bool
  | .amix _ => true
  | _ => false

/-- `anullsrc` kind tester. -/
def FilterKind.isAnullsrc : FilterKind → Bool
  | .anullsrc _ => true
  | _ => false

/-- `overlay` kind tester. -/
def FilterKind.isOverlay : FilterKind → Bool
  | .overlayEnable _ _ _ _ => true
  | _ => false

/-- Walk the node list from absolute index `idx` holding the current canvas:
every overlay node must take the current canvas as its first input, and its
output becomes the new canvas; returns the final canvas. -/
def overlayScan (canvas : StreamRef) (idx : ℕ) : List FilterNode → Option StreamRef
  | [] => some canvas
  | n :: rest =>
      if n.kind.isOverlay then
        if n.inputs.head? = some canvas then overlayScan (.fOut idx) (idx + 1) rest
        else none
      else overlayScan canvas (idx + 1) rest

/-- Track normalization performed by a protocol round trip: only id, type
and segments survive; the playback attributes revert to the
`Track::new` defaults. -/
def normalizeTrack (t : Track) : Track :=
  { Track.new t.id t.track_type with segments := t.segments }

/-- Material kind testers (for the round-trip regrouping). -/
def Material.isVideo : Material → Bool
  | .video _ => true
  | _ => false

/-- Audio material tester. -/
def Material.isAudio : Material → Bool
  | .audio _ => true
  | _ => false

/-- Image material tester. -/
def Material.isImage : Material → Bool
  | .image _ => true
  | _ => false

/-- Session normalization performed by a protocol round trip: stage kept,
materials regrouped videos-then-audios-then-images (order within each kind
preserved), tracks normalized. -/
def normalizeSession (s : EditSession) : EditSession :=
  { stage := s.stage,
    materials :=
      s.materials.filter Material.isVideo ++
      s.materials.filter Material.isAudio ++
      s.materials.filter Material.isImage,
    tracks := s.tracks.map normalizeTrack }

/-! ## Concrete fixtures used by counterexamples and witnesses -/

/-- A plain valid segment: target `[0,1000)`, source `[0,1000)`. -/
def c6seg : Segment :=
  { id := "s6", segment_type := .video, material_id := "m6",
    target_timerange := { start := 0, duration := 1000 },
    source_timerange := { start := 0, duration := 1000 },
    scale := none, position := none }

/-- A sped-up segment: target `[100,1100)` playing source `[0,500)`. -/
def c7seg : Segment :=
  { id := "s7", segment_type := .video, material_id := "m7",
    target_timerange := { start := 100, duration := 1000 },
    source_timerange := { start := 0, duration := 500 },
    scale := none, position := none }

/-- Export options with no overrides, video export. -/
def optsV : ExportOptions :=
  { output_file := "out.mp4", export_type := .video, video_codec := none,
    audio_codec := none, quality := none, video_bitrate := none,
    audio_bitrate := none, custom_options := [] }

/-- A valid track whose single segment references a missing material. -/
def trackC4a : Track :=
  { Track.new "t1" .video with
    segments :=
      [{ id := "s1", segment_type := .video, material_id := "missing",
         target_timerange := { start := 0, duration := 1000 },
         source_timerange := { start := 0, duration := 1000 },
         scale := none, position := none }] }

/-- An invalid track (empty id). -/
def trackC4b : Track := Track.new "" .video

/-- Session where an earlier track has a dangling reference and a later
track is itself invalid. -/
def sessC4 : EditSession :=
  { stage := { width := 1920, height := 1080 }, materials := [],
    tracks := [trackC4a, trackC4b] }

/-- A valid session with one muted (non-default) track. -/
def sessC5 : EditSession :=
  { stage := { width := 1920, height := 1080 }, materials := [],
    tracks := [{ Track.new "t1" .audio with muted := true }] }

/-- A valid audio session whose track volume is `0.5`. -/
def sessC3 : EditSession :=
  { stage := { width := 1920, height := 1080 },
    materials :=
      [.audio { id := "am", src := "a.mp3", duration := none, sample_rate := none,
                channels := none, codec := none, bitrate := none }],
    tracks :=
      [{ Track.new "t1" .audio with
         volume := mkRat 1 2,
         segments :=
           [{ id := "s1", segment_type := .audio, material_id := "am",
              target_timerange := { start := 0, duration := 1000 },
              source_timerange := { start := 0, duration := 1000 },
              scale := none, position := none }] }] }

/-- An invalid session (zero stage width). -/
def sessC9 : EditSession :=
  { stage := { width := 0, height := 1080 }, materials := [], tracks := [] }

/-- Two video tracks, each with one segment over its own material. -/
def sessC1 : EditSession :=
  { stage := { width := 1920, height := 1080 },
    materials :=
      [.video { id := "vA", src := "a.mp4", dimension := { width := 640, height := 360 },
                duration := none, fps := none, codec := none, bitrate := none },
       .video { id := "vB", src := "b.mp4", dimension := { width := 640, height := 360 },
                duration := none, fps := none, codec := none, bitrate := none }],
    tracks :=
      [{ Track.new "tA" .video with
         segments :=
           [{ id := "sA", segment_type := .video, material_id := "vA",
              target_timerange := { start := 0, duration := 1000 },
              source_timerange := { start := 0, duration := 1000 },
              scale := none, position := none }] },
       { Track.new "tB" .video with
         segments :=
           [{ id := "sB", segment_type := .video, material_id := "vB",
              target_timerange := { start := 0, duration := 2000 },
              source_timerange := { start := 0, duration := 2000 },
              scale := none, position := none }] }] }

/-- One audio track with two segments over one material. -/
def sessC2 : EditSession :=
  { stage := { width := 1920, height := 1080 },
    materials :=
      [.audio { id := "am", src := "a.mp3", duration := none, sample_rate := none,
                channels := none, codec := none, bitrate := none }],
    tracks :=
      [{ Track.new "t1" .audio with
         segments :=
           [{ id := "s1", segment_type := .audio, material_id := "am",
              target_timerange := { start := 0, duration := 1000 },
              source_timerange := { start := 0, duration := 1000 },
              scale := none, position := none },
            { id := "s2", segment_type := .audio, material_id := "am",
              target_timerange := { start := 1000, duration := 1000 },
              source_timerange := { start := 500, duration := 1000 },
              scale := none, position := none }] }] }

/-- A video material with no duration, and a probe response reporting a
container duration of `0.9999` seconds. -/
def mv10 : VideoMaterial :=
  { id := "v10", src := "v.mp4", dimension := { width := 640, height := 360 },
    duration := none, fps := some 30, codec := some "h264", bitrate := some 1000 }

/-- Probe response for the duration-conversion counterexample. -/
def info10 : MediaInfo :=
  { streams := [], format := some { duration := some (9999/10000) } }

/-- An audio material with no duration. -/
def ma10 : AudioMaterial :=
  { id := "a10", src := "a.mp3", duration := none, sample_rate := some 44100,
    channels := some 2, codec := some "mp3", bitrate := some 128 }

/-! ## Theorems -/

/-- C6 counterexample: splitting a positive-duration segment exactly at its
own start — a time it `contains` — yields a first part whose target and
source durations are both `0`; `split_at` applies no 1 ms floor. -/
theorem split_at_start_zero_duration :
    (c6seg.splitAt 0).toOption.map
        (fun pr => (pr.1.target_timerange.duration, pr.1.source_timerange.duration)) =
      some (0, 0) ∧
    0 < c6seg.target_timerange.duration ∧
    0 < c6seg.source_timerange.duration ∧
    c6seg.containsTime 0 := by
  decide

/-- C6 amended: `trim_start` and `trim_end` never produce a zero target or
source duration on a segment whose durations are positive — any trim that
would reach `0` clamps to the 1 ms floor. (`split_at` does not clamp; see
the counterexample.) -/
theorem trim_never_zero (s : Segment) (amount : ℕ)
    (_ht : 0 < s.target_timerange.duration) (hs : 0 < s.source_timerange.duration) :
    0 < (s.trimStart amount).target_timerange.duration ∧
    0 < (s.trimStart amount).source_timerange.duration ∧
    0 < (s.trimEnd amount).target_timerange.duration ∧
    0 < (s.trimEnd amount).source_timerange.duration := by
  refine ⟨?_, ?_, ?_, ?_⟩
  · simp only [Segment.trimStart]
    split
    · simp
    · dsimp only
      omega
  · simp only [Segment.trimStart]
    split
    · simpa using hs
    · dsimp only
      split
      · omega
      · omega
  · simp only [Segment.trimEnd]
    split
    · simp
    · dsimp only
      omega
  · simp only [Segment.trimEnd]
    split
    · simpa using hs
    · dsimp only
      split
      · omega
      · omega

/-- Witness for `trim_never_zero` at a concrete segment and amount. -/
theorem trim_never_zero_witness :
    0 < (c6seg.trimStart 100).target_timerange.duration ∧
    0 < (c6seg.trimStart 100).source_timerange.duration ∧
    0 < (c6seg.trimEnd 100).target_timerange.duration ∧
    0 < (c6seg.trimEnd 100).source_timerange.duration :=
  trim_never_zero c6seg 100 (by decide) (by decide)

/-- C7: for `0 < k < D`, `split_at(T0+k)` succeeds with target windows
exactly `[T0, T0+k)` and `[T0+k, T0+D)`; the first part's source duration is
`⌊k · (source_duration / target_duration)⌋` (the original playback speed),
the second part's source window starts at the first's source end, the two
source durations sum to the original source duration, and `split_at` at
exactly `T0+D` fails with `InvalidParams`. -/
theorem split_at_partitions (s : Segment) (k : ℕ)
    (hk0 : 0 < k) (hkD : k < s.target_timerange.duration)
    (hNoOv : s.target_timerange.start + s.target_timerange.duration < U32)
    (hSrc : s.source_timerange.duration < U32) :
    ((s.splitAt (s.target_timerange.start + k)).toOption.map fun pr => pr.1.target_timerange) =
      some { start := s.target_timerange.start, duration := k } ∧
    ((s.splitAt (s.target_timerange.start + k)).toOption.map fun pr => pr.2.target_timerange) =
      some { start := s.target_timerange.start + k,
             duration := s.target_timerange.duration - k } ∧
    ((s.splitAt (s.target_timerange.start + k)).toOption.map fun pr =>
        pr.1.source_timerange.start) = some s.source_timerange.start ∧
    ((s.splitAt (s.target_timerange.start + k)).toOption.map fun pr =>
        pr.1.source_timerange.duration) =
      some (k * s.source_timerange.duration / s.target_timerange.duration) ∧
    ((s.splitAt (s.target_timerange.start + k)).toOption.map fun pr =>
        pr.2.source_timerange.start) =
      ((s.splitAt (s.target_timerange.start + k)).toOption.map fun pr =>
        pr.1.source_timerange.endTime) ∧
    ((s.splitAt (s.target_timerange.start + k)).toOption.map fun pr =>
        pr.1.source_timerange.duration + pr.2.source_timerange.duration) =
      some s.source_timerange.duration ∧
    s.splitAt (s.target_timerange.start + s.target_timerange.duration) =
      .error (.invalidParams "Split time is not within segment") := by
  have hend : s.targetEndTime = s.target_timerange.start + s.target_timerange.duration := by
    simp only [Segment.targetEndTime, TimeRange.endTime, wadd]
    exact Nat.mod_eq_of_lt hNoOv
  have hc : s.containsTime (s.target_timerange.start + k) := by
    refine ⟨by omega, ?_⟩
    rw [hend]
    omega
  have hnc : ¬ s.containsTime (s.target_timerange.start + s.target_timerange.duration) := by
    intro h
    rw [Segment.containsTime, hend] at h
    omega
  have htd0 : s.target_timerange.duration ≠ 0 := by omega
  have hoffle : k * s.source_timerange.duration / s.target_timerange.duration ≤
      s.source_timerange.duration := by
    calc k * s.source_timerange.duration / s.target_timerange.duration
        ≤ s.target_timerange.duration * s.source_timerange.duration /
            s.target_timerange.duration :=
          Nat.div_le_div_right (Nat.mul_le_mul_right _ (le_of_lt hkD))
      _ = s.source_timerange.duration := Nat.mul_div_cancel_left _ (by omega)
  have hmin : speedScaled k s.source_timerange.duration s.target_timerange.duration =
      k * s.source_timerange.duration / s.target_timerange.duration := by
    rw [speedScaled, if_neg htd0]
    exact min_eq_left (by omega)
  have hoff : s.target_timerange.start + k - s.target_timerange.start = k := by omega
  have hsplit : s.splitAt (s.target_timerange.start + k) =
      .ok
        ({ id := s.id ++ "_part1", segment_type := s.segment_type,
           material_id := s.material_id,
           target_timerange := { start := s.target_timerange.start, duration := k },
           source_timerange :=
             { start := s.source_timerange.start,
               duration := k * s.source_timerange.duration / s.target_timerange.duration },
           scale := s.scale, position := s.position },
         { id := s.id ++ "_part2", segment_type := s.segment_type,
           material_id := s.material_id,
           target_timerange :=
             { start := s.target_timerange.start + k,
               duration := s.target_timerange.duration - k },
           source_timerange :=
             { start := wadd s.source_timerange.start
                 (k * s.source_timerange.duration / s.target_timerange.duration),
               duration := s.source_timerange.duration -
                 k * s.source_timerange.duration / s.target_timerange.duration },
           scale := s.scale, position := s.position }) := by
    simp only [Segment.splitAt, if_pos hc, hoff, hmin]
  refine ⟨?_, ?_, ?_, ?_, ?_, ?_, ?_⟩
  · rw [hsplit]; rfl
  · rw [hsplit]; rfl
  · rw [hsplit]; rfl
  · rw [hsplit]; rfl
  · rw [hsplit]; rfl
  · rw [hsplit]
    simp [Except.toOption]
    omega
  · exact if_neg hnc

/-- Witness for `split_at_partitions` at `c7seg` (target `[100,1100)`,
source `[0,500)`) and `k = 300`. -/
theorem split_at_partitions_witness :
    ((c7seg.splitAt (c7seg.target_timerange.start + 300)).toOption.map fun pr =>
        pr.1.target_timerange) =
      some { start := c7seg.target_timerange.start, duration := 300 } ∧
    ((c7seg.splitAt (c7seg.target_timerange.start + 300)).toOption.map fun pr =>
        pr.2.target_timerange) =
      some { start := c7seg.target_timerange.start + 300,
             duration := c7seg.target_timerange.duration - 300 } ∧
    ((c7seg.splitAt (c7seg.target_timerange.start + 300)).toOption.map fun pr =>
        pr.1.source_timerange.start) = some c7seg.source_timerange.start ∧
    ((c7seg.splitAt (c7seg.target_timerange.start + 300)).toOption.map fun pr =>
        pr.1.source_timerange.duration) =
      some (300 * c7seg.source_timerange.duration / c7seg.target_timerange.duration) ∧
    ((c7seg.splitAt (c7seg.target_timerange.start + 300)).toOption.map fun pr =>
        pr.2.source_timerange.start) =
      ((c7seg.splitAt (c7seg.target_timerange.start + 300)).toOption.map fun pr =>
        pr.1.source_timerange.endTime) ∧
    ((c7seg.splitAt (c7seg.target_timerange.start + 300)).toOption.map fun pr =>
        pr.1.source_timerange.duration + pr.2.source_timerange.duration) =
      some c7seg.source_timerange.duration ∧
    c7seg.splitAt (c7seg.target_timerange.start + c7seg.target_timerange.duration) =
      .error (.invalidParams "Split time is not within segment") :=
  split_at_partitions c7seg 300 (by decide) (by decide) (by decide) (by decide)

/-- `Except` bind succeeds only through a successful first step. -/
theorem except_bind_ok {α β : Type} {a : Except CutError α} {f : α → Except CutError β} {b : β}
    (h : (a >>= f) = .ok b) : ∃ x, a = .ok x ∧ f x = .ok b := by
  cases a with
  | error e => simp [Bind.bind, Except.bind] at h
  | ok x => exact ⟨x, rfl, by simpa [Bind.bind, Except.bind] using h⟩

/-- The per-track validation loop distributes over list append. -/
theorem validateTracks_append (s : EditSession) (l1 l2 : List Track) :
    EditSession.validateTracks s (l1 ++ l2) =
      (do
        EditSession.validateTracks s l1
        EditSession.validateTracks s l2) := by
  induction l1 with
  | nil => simp [EditSession.validateTracks, Bind.bind, Except.bind]
  | cons t rest ih =>
      simp only [List.cons_append, EditSession.validateTracks]
      cases h1 : t.validate with
      | error e => simp [Bind.bind, Except.bind, h1]
      | ok u =>
          cases h2 : EditSession.checkSegmentRefs s t.segments with
          | error e => simp [Bind.bind, Except.bind, h1, h2]
          | ok u2 => simp [Bind.bind, Except.bind, h1, h2, ih]

/-- A successful reference check means every `material_id` resolves. -/
theorem checkSegmentRefs_ok (s : EditSession) (l : List Segment)
    (h : EditSession.checkSegmentRefs s l = .ok ()) :
    ∀ sg ∈ l, (s.getMaterial sg.material_id).isSome := by
  induction l with
  | nil => intro sg hsg; cases hsg
  | cons a rest ih =>
      intro sg hsg
      rw [EditSession.checkSegmentRefs] at h
      split at h
      · cases h
      · rcases List.mem_cons.mp hsg with rfl | hmem
        · rename_i hnone
          cases ho : s.getMaterial sg.material_id with
          | none => exact absurd (by simp [ho]) hnone
          | some m => simp
        · exact ih h sg hmem

/-- A successful track loop means every segment's `material_id` resolves. -/
theorem validateTracks_refs (s : EditSession) (l : List Track)
    (h : EditSession.validateTracks s l = .ok ()) :
    ∀ t ∈ l, ∀ sg ∈ t.segments, (s.getMaterial sg.material_id).isSome := by
  induction l with
  | nil => intro t ht; cases ht
  | cons a rest ih =>
      intro t ht sg hsg
      rw [EditSession.validateTracks] at h
      obtain ⟨x, hx1, h⟩ := except_bind_ok h
      obtain ⟨y, hy1, h⟩ := except_bind_ok h
      rcases List.mem_cons.mp ht with rfl | hmem
      · exact checkSegmentRefs_ok s t.segments (by cases y; exact hy1) sg hsg
      · exact ih h t hmem sg hsg

/-- After a successful `validate`, every referenced material resolves. -/
theorem validate_refsBound (s : EditSession) (h : s.validate = .ok ()) :
    ∀ sg ∈ allSegments s, (s.getMaterial sg.material_id).isSome := by
  intro sg hsg
  rw [EditSession.validate] at h
  split at h
  · cases h
  · obtain ⟨x, hx1, h⟩ := except_bind_ok h
    obtain ⟨t, ht, hmem⟩ := List.mem_flatMap.mp hsg
    exact validateTracks_refs s s.tracks h t ht sg hmem

/-- C4 amended: validation interleaves per track — for each track in storage
order, the track's own validity and then that track's segment references are
checked before any later track is examined; so an earlier track's dangling
reference is reported regardless of later tracks' invalidity. -/
theorem validate_reports_earlier_track_first (s : EditSession) (pre : List Track)
    (t : Track) (suf : List Track) (e : CutError)
    (hsplit : s.tracks = pre ++ t :: suf)
    (hstage : ¬(s.stage.width ≤ 0 ∨ s.stage.height ≤ 0))
    (hmats : EditSession.validateMaterials s.materials = .ok ())
    (hpre : EditSession.validateTracks s pre = .ok ())
    (ht : t.validate = .ok ())
    (href : EditSession.checkSegmentRefs s t.segments = .error e) :
    s.validate = .error e := by
  rw [EditSession.validate, if_neg hstage, hsplit, hmats, validateTracks_append, hpre]
  simp only [EditSession.validateTracks, ht, href, Bind.bind, Except.bind]

/-- C4 counterexample: in `sessC4` the first track is itself valid but has a
dangling `material_id`, and the second track is invalid (empty id);
`validate` reports the first track's dangling reference, not the later
track's own invalidity. -/
theorem validate_dangling_before_later_invalid :
    sessC4.validate = .error (.invalidParams "Material missing not found") ∧
    trackC4a.validate = .ok () ∧
    trackC4b.validate = .error (.invalidParams "Track ID cannot be empty") ∧
    sessC4.tracks = [trackC4a, trackC4b] := by
  decide

/-- Witness for `validate_reports_earlier_track_first` at `sessC4`. -/
theorem validate_reports_earlier_track_first_witness :
    sessC4.validate = .error (.invalidParams "Material missing not found") :=
  validate_reports_earlier_track_first sessC4 [] trackC4a [trackC4b]
    (.invalidParams "Material missing not found")
    (by decide) (by decide) (by decide) (by decide) (by decide) (by decide)

/-- C9 amended: `Editor::export` re-validates — its first step is
`self.validate()?` and any validation error is returned as export's own
result. -/
theorem export_propagates_validation_error (s : EditSession) (opts : ExportOptions)
    (e : CutError) (h : s.validate = .error e) :
    exportSession s opts = .error e := by
  simp [exportSession, Bind.bind, Except.bind, h]

/-- C9 counterexample: on a session with an invalid stage, `export` itself
returns the validation error. -/
theorem export_returns_validation_error :
    exportSession sessC9 optsV = .error (.invalidParams "Stage dimensions must be positive") ∧
    sessC9.validate = .error (.invalidParams "Stage dimensions must be positive") := by
  decide

/-- Witness for `export_propagates_validation_error` at `sessC9`. -/
theorem export_propagates_validation_error_witness :
    exportSession sessC9 optsV = .error (.invalidParams "Stage dimensions must be positive") :=
  export_propagates_validation_error sessC9 optsV
    (.invalidParams "Stage dimensions must be positive") (by decide)

/-- The stream-derived fills of the video arm of `fix` never touch the
duration field. -/
theorem fixVideoStreamFields_duration (v : VideoMaterial) (vs : StreamInfo) :
    (fixVideoStreamFields v vs).duration = v.duration := by
  unfold fixVideoStreamFields
  dsimp only
  repeat' split
  all_goals simp

/-- The stream-derived fills of the audio arm of `fix` never touch the
duration field. -/
theorem fixAudioStreamFields_duration (a : AudioMaterial) (asr : StreamInfo) :
    (fixAudioStreamFields a asr).duration = a.duration := by
  unfold fixAudioStreamFields
  dsimp only
  repeat' split
  all_goals simp

/-- C10 amended: when `Editor::fix` stores a container duration on a video
or audio material whose duration is absent, the probe-reported seconds are
converted by the saturating truncation `(secs * 1000.0) as u32` — i.e.
`⌊secs·1000⌋` clamped into the `u32` range — not by rounding. -/
theorem fix_duration_truncates (v : VideoMaterial) (a : AudioMaterial) (info : MediaInfo)
    (secs : ℚ) (hv : v.duration = none) (ha : a.duration = none)
    (hfmt : info.format = some { duration := some secs }) :
    (fixVideo v info).duration = some (ratToU32 (secs * 1000)) ∧
    (fixAudio a info).duration = some (ratToU32 (secs * 1000)) := by
  constructor
  · rw [fixVideo]
    cases hfind : info.streams.find? (fun st => st.codec_type == some "video") with
    | none => simp [hfind, hv, hfmt, durationMsOfSeconds]
    | some vs => simp [hfind, fixVideoStreamFields_duration, hv, hfmt, durationMsOfSeconds]
  · rw [fixAudio]
    cases hfind : info.streams.find? (fun st => st.codec_type == some "audio") with
    | none => simp [hfind, ha, hfmt, durationMsOfSeconds]
    | some asr => simp [hfind, fixAudioStreamFields_duration, ha, hfmt, durationMsOfSeconds]

/-- Witness for `fix_duration_truncates` at `mv10`/`ma10` with a probe
duration of `0.9999` seconds. -/
theorem fix_duration_truncates_witness :
    (fixVideo mv10 info10).duration = some (ratToU32 ((9999/10000 : ℚ) * 1000)) ∧
    (fixAudio ma10 info10).duration = some (ratToU32 ((9999/10000 : ℚ) * 1000)) :=
  fix_duration_truncates mv10 ma10 info10 (9999/10000) rfl rfl rfl

/-- C10 counterexample: a probe duration of `0.9999` seconds is stored as
`999` ms, while rounding (`round(seconds * 1000)`) would give `1000`. -/
theorem fix_duration_not_rounded :
    mv10.duration = none ∧
    (fixVideo mv10 info10).duration = some 999 ∧
    ¬((999 : ℤ) = round ((9999/10000 : ℚ) * 1000)) := by
  refine ⟨rfl, ?_, ?_⟩
  · have h1 : (fixVideo mv10 info10).duration = some (ratToU32 ((9999/10000 : ℚ) * 1000)) :=
      (fix_duration_truncates mv10 ma10 info10 (9999/10000) rfl rfl rfl).1
    rw [h1]
    norm_num [ratToU32, U32]
    rfl
  · norm_num [round_eq]

/-- Parsing inverts the segment-type tag emission. -/
theorem parseSegmentType_toTag (st : SegmentType) :
    CutProtocol.parseSegmentType st.toTag = .ok st := by
  cases st <;> rfl

/-- Parsing inverts the track-type tag emission. -/
theorem parseTrackType_toTag (tt : TrackType) :
    CutProtocol.parseTrackType tt.toTag = .ok tt := by
  cases tt <;> rfl

/-- A segment survives the protocol round trip exactly. -/
theorem segmentOfProto_protoOf (sg : Segment) :
    CutProtocol.segmentOfProto (CutProtocol.protoOfSegment sg) = .ok sg := by
  simp only [CutProtocol.protoOfSegment, CutProtocol.segmentOfProto,
    parseSegmentType_toTag, Bind.bind, Except.bind]
  cases sg with
  | mk id st mid tr sr sc pos =>
      cases sc <;> cases pos <;> rfl

/-- A segment list survives the protocol round trip in order. -/
theorem segmentsOfProto_map (l : List Segment) :
    CutProtocol.segmentsOfProto (l.map CutProtocol.protoOfSegment) = .ok l := by
  induction l with
  | nil => rfl
  | cons sg rest ih =>
      simp [CutProtocol.segmentsOfProto, segmentOfProto_protoOf, ih,
        Bind.bind, Except.bind]

/-- A track round-trips to its normalization: id, type and segments
survive; the playback attributes revert to the defaults. -/
theorem trackOfProto_protoOf (t : Track) :
    CutProtocol.trackOfProto (CutProtocol.protoOfTrack t) = .ok (normalizeTrack t) := by
  simp [CutProtocol.protoOfTrack, CutProtocol.trackOfProto, parseTrackType_toTag,
    segmentsOfProto_map, normalizeTrack, Track.new, Bind.bind, Except.bind]

/-- The track list round-trips to its normalization, order preserved. -/
theorem tracksOfProto_map (l : List Track) :
    CutProtocol.tracksOfProto (l.map CutProtocol.protoOfTrack) =
      .ok (l.map normalizeTrack) := by
  induction l with
  | nil => rfl
  | cons t rest ih =>
      simp [CutProtocol.tracksOfProto, trackOfProto_protoOf, ih,
        Bind.bind, Except.bind]


/-- The video materials regrouped by `from_session` convert back to the
video-material subsequence of the session, in order. -/
theorem pushMaterial_videos (ms : List Material) (acc : Materials) :
    ((ms.foldl CutProtocol.pushMaterial acc).videos).map CutProtocol.materialOfVideoProto =
      acc.videos.map CutProtocol.materialOfVideoProto ++ ms.filter Material.isVideo := by
  induction ms generalizing acc with
  | nil => simp
  | cons m rest ih =>
      cases m with
      | video v =>
          simp [CutProtocol.pushMaterial, ih, Material.isVideo,
            CutProtocol.materialOfVideoProto]
      | audio a =>
          simp [CutProtocol.pushMaterial, ih, Material.isVideo]
      | image i =>
          simp [CutProtocol.pushMaterial, ih, Material.isVideo]

/-- The audio materials regrouped by `from_session` convert back to the
audio-material subsequence of the session, in order. -/
theorem pushMaterial_audios (ms : List Material) (acc : Materials) :
    ((ms.foldl CutProtocol.pushMaterial acc).audios).map CutProtocol.materialOfAudioProto =
      acc.audios.map CutProtocol.materialOfAudioProto ++ ms.filter Material.isAudio := by
  induction ms generalizing acc with
  | nil => simp
  | cons m rest ih =>
      cases m with
      | video v =>
          simp [CutProtocol.pushMaterial, ih, Material.isAudio]
      | audio a =>
          simp [CutProtocol.pushMaterial, ih, Material.isAudio,
            CutProtocol.materialOfAudioProto]
      | image i =>
          simp [CutProtocol.pushMaterial, ih, Material.isAudio]

/-- The image materials regrouped by `from_session` convert back to the
image-material subsequence of the session, in order. -/
theorem pushMaterial_images (ms : List Material) (acc : Materials) :
    ((ms.foldl CutProtocol.pushMaterial acc).images).map CutProtocol.materialOfImageProto =
      acc.images.map CutProtocol.materialOfImageProto ++ ms.filter Material.isImage := by
  induction ms generalizing acc with
  | nil => simp
  | cons m rest ih =>
      cases m with
      | video v =>
          simp [CutProtocol.pushMaterial, ih, Material.isImage]
      | audio a =>
          simp [CutProtocol.pushMaterial, ih, Material.isImage]
      | image i =>
          simp [CutProtocol.pushMaterial, ih, Material.isImage,
            CutProtocol.materialOfImageProto]

/-- C5 amended: for every `EditSession` `s`, `to_session(from_session(s))`
succeeds and equals `normalizeSession s`: the stage is preserved exactly,
every track keeps its id, type and segment list (segment order preserved
exactly), the per-kind material subsequences are preserved in order, but
the materials list is regrouped videos-audios-images and the track playback
attributes (enabled, muted, volume, opacity, blend_mode) are reset to the
`Track::new` defaults. -/
theorem roundtrip_normalizes (s : EditSession) :
    CutProtocol.to_session (CutProtocol.from_session s) = .ok (normalizeSession s) := by
  simp only [CutProtocol.to_session, CutProtocol.from_session, tracksOfProto_map,
    Bind.bind, Except.bind]
  have hv := pushMaterial_videos s.materials { videos := [], images := [], audios := [] }
  have ha := pushMaterial_audios s.materials { videos := [], images := [], audios := [] }
  have hi := pushMaterial_images s.materials { videos := [], images := [], audios := [] }
  simp only [List.map_nil, List.nil_append] at hv ha hi
  simp [normalizeSession, hv, ha, hi]


/-- C5 counterexample: a valid session with one muted track round-trips to
a session that is not value-equal to it (the muted flag is lost). -/
theorem roundtrip_not_identity :
    sessC5.validate = .ok () ∧
    (CutProtocol.to_session (CutProtocol.from_session sessC5)).toOption.isSome ∧
    (CutProtocol.to_session (CutProtocol.from_session sessC5)).toOption ≠ some sessC5 := by
  decide

end Cluv

namespace Cluv

/-- Membership of a key in an association list of input indices is equivalent to lookupInput returning some value. -/
theorem lookupInput_isSome_iff (mi : List (String × ℕ)) (k : String) :
    (lookupInput mi k).isSome ↔ k ∈ mi.map Prod.fst := by
  induction mi with
  | nil => simp [lookupInput]
  | cons p rest ih =>
      by_cases h : p.1 = k
      · simp [lookupInput, List.find?_cons, h]
      · have hbeq : (p.1 == k) = false := by simpa using h
        have hstep : lookupInput (p :: rest) k = lookupInput rest k := by
          simp [lookupInput, List.find?_cons, hbeq]
        rw [hstep, ih]
        simp only [List.map_cons, List.mem_cons]
        constructor
        · intro hm
          exact Or.inr hm
        · rintro (h1 | h1)
          · exact absurd h1.symm h
          · exact h1

/-- firstRefs depends on the seen list only through membership of the scanned material ids. -/
theorem firstRefs_congr (l : List Segment) (s1 s2 : List String)
    (h : ∀ k, k ∈ s1 ↔ k ∈ s2) : firstRefs l s1 = firstRefs l s2 := by
  induction l generalizing s1 s2 with
  | nil => rfl
  | cons sg rest ih =>
      simp only [firstRefs]
      by_cases hm : sg.material_id ∈ s1
      · rw [if_pos hm, if_pos ((h _).mp hm)]
        exact ih s1 s2 h
      · rw [if_neg hm, if_neg (fun hx => hm ((h _).mpr hx))]
        congr 1
        refine ih _ _ fun k => ?_
        simp [h k]

/-- Folding a list-accumulating step decomposes as appending the flatMap of per-element contributions. -/
theorem foldl_flatMap {α β γ : Type} (f : γ → β → γ) (g : α → List β) (l : List α)
    (init : γ) :
    (l.flatMap g).foldl f init = l.foldl (fun acc a => (g a).foldl f acc) init := by
  induction l generalizing init with
  | nil => rfl
  | cons a rest ih => simp [List.flatMap_cons, List.foldl_append, ih]


/-- Material ids collected by firstRefs are distinct and avoid the seen list. -/
theorem firstRefs_nodup (l : List Segment) (seen : List String) :
    ((firstRefs l seen).map Segment.material_id).Nodup ∧
    ∀ sg ∈ firstRefs l seen, sg.material_id ∉ seen := by
  induction l generalizing seen with
  | nil => simp [firstRefs]
  | cons sg rest ih =>
      simp only [firstRefs]
      by_cases hm : sg.material_id ∈ seen
      · rw [if_pos hm]
        exact ih seen
      · rw [if_neg hm]
        obtain ⟨ihn, ihs⟩ := ih (sg.material_id :: seen)
        refine ⟨?_, ?_⟩
        · simp only [List.map_cons, List.nodup_cons]
          refine ⟨?_, ihn⟩
          intro hmem
          obtain ⟨x, hx, hxe⟩ := List.mem_map.mp hmem
          have := ihs x hx
          simp [hxe] at this
        · intro x hx
          rcases List.mem_cons.mp hx with rfl | hx2
          · exact hm
          · intro hxs
            exact ihs x hx2 (List.mem_cons_of_mem _ hxs)

/-- Every scanned segment's material id occurs in the seen list extended with the firstRefs ids. -/
theorem firstRefs_covers (l : List Segment) (seen : List String) :
    ∀ sg ∈ l, sg.material_id ∈ seen ∨
      sg.material_id ∈ (firstRefs l seen).map Segment.material_id := by
  induction l generalizing seen with
  | nil => intro sg h; cases h
  | cons a rest ih =>
      intro sg hsg
      simp only [firstRefs]
      by_cases hm : a.material_id ∈ seen
      · rw [if_pos hm]
        rcases List.mem_cons.mp hsg with rfl | hx
        · exact Or.inl hm
        · exact ih seen sg hx
      · rw [if_neg hm]
        rcases List.mem_cons.mp hsg with rfl | hx
        · exact Or.inr (by simp)
        · rcases ih (a.material_id :: seen) sg hx with hs | hs
          · rcases List.mem_cons.mp hs with he | hs2
            · exact Or.inr (by simp [he])
            · exact Or.inl hs2
          · exact Or.inr (by simp [hs])

/-- Structure of the input-binding fold of export: it registers exactly the first segment per unseen material id, in scan order, and appends the corresponding input bindings. -/
theorem bindFold_spec (s : EditSession) (l : List Segment) (g : FFmpegGraph)
    (mi : List (String × ℕ))
    (hres : ∀ sg ∈ l, (s.getMaterial sg.material_id).isSome) :
    (l.foldl (bindSegmentInput s) (g, mi)).1.inputs =
      g.inputs ++ (firstRefs l (mi.map Prod.fst)).filterMap (inputBindingOf s) ∧
    (l.foldl (bindSegmentInput s) (g, mi)).2.map Prod.fst =
      mi.map Prod.fst ++ (firstRefs l (mi.map Prod.fst)).map Segment.material_id ∧
    (l.foldl (bindSegmentInput s) (g, mi)).1.filters = g.filters := by
  induction l generalizing g mi with
  | nil => simp [firstRefs]
  | cons sg rest ih =>
      have hhead := hres sg (List.mem_cons_self sg rest)
      obtain ⟨m, hm⟩ := Option.isSome_iff_exists.mp hhead
      have hrest : ∀ x ∈ rest, (s.getMaterial x.material_id).isSome :=
        fun x hx => hres x (List.mem_cons_of_mem _ hx)
      by_cases hseen : sg.material_id ∈ mi.map Prod.fst
      · have hlk : (lookupInput mi sg.material_id).isSome :=
          (lookupInput_isSome_iff mi sg.material_id).mpr hseen
        have hstep : bindSegmentInput s (g, mi) sg = (g, mi) := by
          simp [bindSegmentInput, hlk]
        rw [List.foldl_cons, hstep]
        have hfr : firstRefs (sg :: rest) (mi.map Prod.fst) =
            firstRefs rest (mi.map Prod.fst) := by
          simp [firstRefs, hseen]
        rw [hfr]
        exact ih g mi hrest
      · have hlk : ¬(lookupInput mi sg.material_id).isSome := by
          rw [lookupInput_isSome_iff]
          exact hseen
        have hstep : bindSegmentInput s (g, mi) sg =
            ({ g with inputs := g.inputs ++
                 [{ startSec := (sg.source_timerange.start : ℚ) / 1000,
                    durationSec := (sg.source_timerange.duration : ℚ) / 1000,
                    path := m.src }] },
             mi ++ [(sg.material_id, g.inputs.length)]) := by
          simp [bindSegmentInput, hlk, hm, FFmpegGraph.addInput]
        rw [List.foldl_cons, hstep]
        obtain ⟨h1, h2, h3⟩ := ih ({ g with inputs := g.inputs ++
                 [{ startSec := (sg.source_timerange.start : ℚ) / 1000,
                    durationSec := (sg.source_timerange.duration : ℚ) / 1000,
                    path := m.src }] }) (mi ++ [(sg.material_id, g.inputs.length)]) hrest
        have hkeys : (mi ++ [(sg.material_id, g.inputs.length)]).map Prod.fst =
            mi.map Prod.fst ++ [sg.material_id] := by simp
        have hcongr : firstRefs rest ((mi ++ [(sg.material_id, g.inputs.length)]).map Prod.fst) =
            firstRefs rest (sg.material_id :: mi.map Prod.fst) := by
          rw [hkeys]
          refine firstRefs_congr rest _ _ fun k => ?_
          simp [List.mem_append, List.mem_cons, or_comm]
        have hfr : firstRefs (sg :: rest) (mi.map Prod.fst) =
            sg :: firstRefs rest (sg.material_id :: mi.map Prod.fst) := by
          simp [firstRefs, hseen]
        have hbind : inputBindingOf s sg =
            some { startSec := (sg.source_timerange.start : ℚ) / 1000,
                   durationSec := (sg.source_timerange.duration : ℚ) / 1000,
                   path := m.src } := by
          simp [inputBindingOf, hm]
        refine ⟨?_, ?_, ?_⟩
        · rw [h1, hcongr, hfr]
          simp [hbind]
        · rw [h2, hcongr, hkeys, hfr]
          simp
        · exact h3


/-- bindInputs binds one external input per distinct material id, keyed in first-occurrence order across all tracks, and the graph gains exactly those bindings. -/
theorem bindInputs_spec (s : EditSession) (g : FFmpegGraph)
    (hres : ∀ sg ∈ allSegments s, (s.getMaterial sg.material_id).isSome) :
    (bindInputs s g).1.inputs =
      g.inputs ++ (firstMaterialRefs s).filterMap (inputBindingOf s) ∧
    (bindInputs s g).2.map Prod.fst = (firstMaterialRefs s).map Segment.material_id ∧
    (bindInputs s g).1.filters = g.filters := by
  have heq : bindInputs s g = (allSegments s).foldl (bindSegmentInput s) (g, []) := by
    rw [bindInputs, allSegments, foldl_flatMap]
  rw [heq]
  have h := bindFold_spec s (allSegments s) g [] hres
  simpa [firstMaterialRefs] using h

/-- videoSegmentChain appends exactly the per-segment video filter kinds segVideoKinds and returns the freshly created overlay node as new canvas. -/
theorem videoSegmentChain_spec (mi : List (String × ℕ)) (sg : Segment) (g : FFmpegGraph)
    (c : StreamRef) (hsome : (lookupInput mi sg.material_id).isSome) :
    ∃ delta : List FilterNode,
      (videoSegmentChain mi (g, c) sg).1.filters = g.filters ++ delta ∧
      delta.map FilterNode.kind = segVideoKinds sg ∧
      overlayScan c g.filters.length delta = some (videoSegmentChain mi (g, c) sg).2 ∧
      (videoSegmentChain mi (g, c) sg).1.inputs = g.inputs := by
  obtain ⟨idx, hidx⟩ := Option.isSome_iff_exists.mp hsome
  cases hsc : sg.scale with
  | none =>
      by_cases hsp : sg.needsSpeedAdjustment
      · refine ⟨[{ kind := .setptsSpeedInv sg.playbackSpeed, inputs := [.vOf idx] },
                 { kind := .setptsShift ((sg.target_timerange.start : ℚ) / 1000),
                   inputs := [.fOut g.filters.length] },
                 { kind := .overlayEnable ((sg.position.map Position.x).getD 0)
                     ((sg.position.map Position.y).getD 0)
                     ((sg.target_timerange.start : ℚ) / 1000)
                     ((sg.target_timerange.start : ℚ) / 1000 +
                      (sg.target_timerange.duration : ℚ) / 1000),
                   inputs := [c, .fOut (g.filters.length + 1)] }], ?_, ?_, ?_, ?_⟩ <;>
          simp [videoSegmentChain, hidx, hsc, hsp, FFmpegGraph.addFilter, segVideoKinds,
            overlayScan, FilterKind.isOverlay, Nat.add_assoc]
      · refine ⟨[{ kind := .setptsShift ((sg.target_timerange.start : ℚ) / 1000),
                   inputs := [.vOf idx] },
                 { kind := .overlayEnable ((sg.position.map Position.x).getD 0)
                     ((sg.position.map Position.y).getD 0)
                     ((sg.target_timerange.start : ℚ) / 1000)
                     ((sg.target_timerange.start : ℚ) / 1000 +
                      (sg.target_timerange.duration : ℚ) / 1000),
                   inputs := [c, .fOut g.filters.length] }], ?_, ?_, ?_, ?_⟩ <;>
          simp [videoSegmentChain, hidx, hsc, hsp, FFmpegGraph.addFilter, segVideoKinds,
            overlayScan, FilterKind.isOverlay, Nat.add_assoc]
  | some sc =>
      by_cases hsp : sg.needsSpeedAdjustment
      · refine ⟨[{ kind := .scale sc.width sc.height, inputs := [.vOf idx] },
                 { kind := .setptsSpeedInv sg.playbackSpeed,
                   inputs := [.fOut g.filters.length] },
                 { kind := .setptsShift ((sg.target_timerange.start : ℚ) / 1000),
                   inputs := [.fOut (g.filters.length + 1)] },
                 { kind := .overlayEnable ((sg.position.map Position.x).getD 0)
                     ((sg.position.map Position.y).getD 0)
                     ((sg.target_timerange.start : ℚ) / 1000)
                     ((sg.target_timerange.start : ℚ) / 1000 +
                      (sg.target_timerange.duration : ℚ) / 1000),
                   inputs := [c, .fOut (g.filters.length + 2)] }], ?_, ?_, ?_, ?_⟩ <;>
          simp [videoSegmentChain, hidx, hsc, hsp, FFmpegGraph.addFilter, segVideoKinds,
            overlayScan, FilterKind.isOverlay, Nat.add_assoc]
      · refine ⟨[{ kind := .scale sc.width sc.height, inputs := [.vOf idx] },
                 { kind := .setptsShift ((sg.target_timerange.start : ℚ) / 1000),
                   inputs := [.fOut g.filters.length] },
                 { kind := .overlayEnable ((sg.position.map Position.x).getD 0)
                     ((sg.position.map Position.y).getD 0)
                     ((sg.target_timerange.start : ℚ) / 1000)
                     ((sg.target_timerange.start : ℚ) / 1000 +
                      (sg.target_timerange.duration : ℚ) / 1000),
                   inputs := [c, .fOut (g.filters.length + 1)] }], ?_, ?_, ?_, ?_⟩ <;>
          simp [videoSegmentChain, hidx, hsc, hsp, FFmpegGraph.addFilter, segVideoKinds,
            overlayScan, FilterKind.isOverlay, Nat.add_assoc]


/-- overlayScan over an appended list continues scanning the suffix from the state reached after the prefix. -/
theorem overlayScan_append (l1 : List FilterNode) (c c1 : StreamRef) (i : ℕ)
    (l2 : List FilterNode) (h : overlayScan c i l1 = some c1) :
    overlayScan c i (l1 ++ l2) = overlayScan c1 (i + l1.length) l2 := by
  induction l1 generalizing c i with
  | nil =>
      simp only [overlayScan] at h
      cases h
      simp [overlayScan]
  | cons n rest ih =>
      simp only [overlayScan, List.cons_append, List.append_eq] at h ⊢
      by_cases hk : n.kind.isOverlay
      · rw [if_pos hk] at h ⊢
        by_cases hh : n.inputs.head? = some c
        · rw [if_pos hh] at h ⊢
          rw [ih _ _ h]
          congr 1
          simp [List.length_cons]
          omega
        · rw [if_neg hh] at h
          cases h
      · rw [if_neg hk] at h ⊢
        rw [ih _ _ h]
        congr 1
        simp [List.length_cons]
        omega

/-- overlayScan ignores a block of nodes containing no overlay. -/
theorem overlayScan_no_overlay (l : List FilterNode) (c : StreamRef) (i : ℕ)
    (h : ∀ n ∈ l, n.kind.isOverlay = false) :
    overlayScan c i l = some c := by
  induction l generalizing i with
  | nil => rfl
  | cons n rest ih =>
      have hn := h n (List.mem_cons_self n rest)
      simp only [overlayScan, hn]
      simp only [Bool.false_eq_true, if_false]
      exact ih (i + 1) fun x hx => h x (List.mem_cons_of_mem _ hx)

/-- Folding videoSegmentChain over a segment list appends the flatMap of segVideoKinds and chains overlays from the incoming canvas. -/
theorem videoSegFold_spec (mi : List (String × ℕ)) (l : List Segment) (g : FFmpegGraph)
    (c : StreamRef)
    (hall : ∀ sg ∈ l, (lookupInput mi sg.material_id).isSome) :
    ∃ delta : List FilterNode,
      (l.foldl (videoSegmentChain mi) (g, c)).1.filters = g.filters ++ delta ∧
      delta.map FilterNode.kind = l.flatMap segVideoKinds ∧
      overlayScan c g.filters.length delta =
        some (l.foldl (videoSegmentChain mi) (g, c)).2 ∧
      (l.foldl (videoSegmentChain mi) (g, c)).1.inputs = g.inputs := by
  induction l generalizing g c with
  | nil => exact ⟨[], by simp, by simp, by simp [overlayScan], by simp⟩
  | cons sg rest ih =>
      obtain ⟨d1, hf1, hk1, hs1, hi1⟩ :=
        videoSegmentChain_spec mi sg g c (hall sg (List.mem_cons_self sg rest))
      obtain ⟨d2, hf2, hk2, hs2, hi2⟩ :=
        ih (videoSegmentChain mi (g, c) sg).1 (videoSegmentChain mi (g, c) sg).2
          (fun x hx => hall x (List.mem_cons_of_mem _ hx))
      refine ⟨d1 ++ d2, ?_, ?_, ?_, ?_⟩
      · rw [List.foldl_cons]
        rw [show (videoSegmentChain mi (g, c) sg) =
              ((videoSegmentChain mi (g, c) sg).1, (videoSegmentChain mi (g, c) sg).2)
            from rfl] at hf2
        rw [hf2, hf1, List.append_assoc]
      · simp [hk1, hk2]
      · rw [List.foldl_cons]
        have hlen : (videoSegmentChain mi (g, c) sg).1.filters.length =
            g.filters.length + d1.length := by
          rw [hf1, List.length_append]
        rw [overlayScan_append d1 c _ _ d2 hs1, ← hlen]
        rw [show (videoSegmentChain mi (g, c) sg) =
              ((videoSegmentChain mi (g, c) sg).1, (videoSegmentChain mi (g, c) sg).2)
            from rfl] at hs2
        exact hs2
      · rw [List.foldl_cons]
        rw [show (videoSegmentChain mi (g, c) sg) =
              ((videoSegmentChain mi (g, c) sg).1, (videoSegmentChain mi (g, c) sg).2)
            from rfl] at hi2
        rw [hi2, hi1]


/-- Folding the per-track video pass appends the kinds of all enabled video tracks in reversed storage order and chains overlays across tracks. -/
theorem videoTrackFold_spec (mi : List (String × ℕ)) (ts : List Track) (g : FFmpegGraph)
    (c : StreamRef)
    (hall : ∀ t ∈ ts, ∀ sg ∈ t.segments, (lookupInput mi sg.material_id).isSome) :
    ∃ delta : List FilterNode,
      (ts.foldl (videoTrackChain mi) (g, c)).1.filters = g.filters ++ delta ∧
      delta.map FilterNode.kind =
        ((((ts.filter fun t => t.enabled).map Track.segments).flatten).flatMap segVideoKinds) ∧
      overlayScan c g.filters.length delta = some (ts.foldl (videoTrackChain mi) (g, c)).2 ∧
      (ts.foldl (videoTrackChain mi) (g, c)).1.inputs = g.inputs := by
  induction ts generalizing g c with
  | nil => exact ⟨[], by simp, by simp, by simp [overlayScan], by simp⟩
  | cons t rest ih =>
      have hrest : ∀ x ∈ rest, ∀ sg ∈ x.segments, (lookupInput mi sg.material_id).isSome :=
        fun x hx => hall x (List.mem_cons_of_mem _ hx)
      by_cases ht : t.enabled
      · have hstep : videoTrackChain mi (g, c) t =
            t.segments.foldl (videoSegmentChain mi) (g, c) := by
          simp [videoTrackChain, ht]
        obtain ⟨d1, hf1, hk1, hs1, hi1⟩ :=
          videoSegFold_spec mi t.segments g c (hall t (List.mem_cons_self t rest))
        obtain ⟨d2, hf2, hk2, hs2, hi2⟩ :=
          ih (t.segments.foldl (videoSegmentChain mi) (g, c)).1
            (t.segments.foldl (videoSegmentChain mi) (g, c)).2 hrest
        refine ⟨d1 ++ d2, ?_, ?_, ?_, ?_⟩
        · rw [List.foldl_cons, hstep]
          rw [show (t.segments.foldl (videoSegmentChain mi) (g, c)) =
                ((t.segments.foldl (videoSegmentChain mi) (g, c)).1,
                 (t.segments.foldl (videoSegmentChain mi) (g, c)).2) from rfl] at hf2
          rw [hf2, hf1, List.append_assoc]
        · simp [hk1, hk2, ht, List.filter_cons]
        · rw [List.foldl_cons, hstep]
          have hlen : (t.segments.foldl (videoSegmentChain mi) (g, c)).1.filters.length =
              g.filters.length + d1.length := by
            rw [hf1, List.length_append]
          rw [overlayScan_append d1 c _ _ d2 hs1, ← hlen]
          rw [show (t.segments.foldl (videoSegmentChain mi) (g, c)) =
                ((t.segments.foldl (videoSegmentChain mi) (g, c)).1,
                 (t.segments.foldl (videoSegmentChain mi) (g, c)).2) from rfl] at hs2
          exact hs2
        · rw [List.foldl_cons, hstep]
          rw [show (t.segments.foldl (videoSegmentChain mi) (g, c)) =
                ((t.segments.foldl (videoSegmentChain mi) (g, c)).1,
                 (t.segments.foldl (videoSegmentChain mi) (g, c)).2) from rfl] at hi2
          rw [hi2, hi1]
      · have hstep : videoTrackChain mi (g, c) t = (g, c) := by
          simp [videoTrackChain, ht]
        obtain ⟨d2, hf2, hk2, hs2, hi2⟩ := ih g c hrest
        refine ⟨d2, ?_, ?_, ?_, ?_⟩
        · rw [List.foldl_cons, hstep, hf2]
        · rw [hk2]
          simp [List.filter_cons, ht]
        · rw [List.foldl_cons, hstep]
          exact hs2
        · rw [List.foldl_cons, hstep, hi2]

/-- audioSegmentChain appends exactly the per-segment audio filter kinds segAudioKinds and returns a stream for the last node of that chain. -/
theorem audioSegmentChain_spec (mi : List (String × ℕ)) (sg : Segment) (g : FFmpegGraph)
    (streams : List StreamRef) (hsome : (lookupInput mi sg.material_id).isSome) :
    ∃ (delta : List FilterNode) (ref : StreamRef),
      (audioSegmentChain mi (g, streams) sg).1.filters = g.filters ++ delta ∧
      delta.map FilterNode.kind = segAudioKinds sg ∧
      (∀ n ∈ delta, n.kind.isOverlay = false) ∧
      (audioSegmentChain mi (g, streams) sg).2 = streams ++ [ref] ∧
      (audioSegmentChain mi (g, streams) sg).1.inputs = g.inputs := by
  obtain ⟨idx, hidx⟩ := Option.isSome_iff_exists.mp hsome
  by_cases h1 : (sg.source_timerange.start : ℚ) / 1000 > 0 ∨
      (sg.source_timerange.duration : ℚ) / 1000 ≠ (sg.target_timerange.duration : ℚ) / 1000
  all_goals by_cases h2 : sg.needsSpeedAdjustment
  all_goals by_cases h3 : (sg.target_timerange.start : ℚ) / 1000 > 0
  · refine ⟨[{ kind := .atrim ((sg.source_timerange.start : ℚ) / 1000) ((sg.source_timerange.duration : ℚ) / 1000), inputs := [.aOf idx] },
                 { kind := .asetptsReset, inputs := [.fOut g.filters.length] },
                 { kind := .atempo sg.playbackSpeed, inputs := [.fOut (g.filters.length + 1)] },
                 { kind := .adelay (ratToI32 ((sg.target_timerange.start : ℚ) / 1000 * 1000)), inputs := [.fOut (g.filters.length + 2)] }], .fOut (g.filters.length + 3), ?_, ?_, ?_, ?_, ?_⟩ <;>
      first
        | (simp only [audioSegmentChain, hidx, segAudioKinds, FFmpegGraph.addFilter,
             if_pos h1, if_pos h2, if_pos h3]
           simp [FilterKind.isOverlay, Nat.add_assoc])
        | simp only [audioSegmentChain, hidx, segAudioKinds, FFmpegGraph.addFilter,
            if_pos h1, if_pos h2, if_pos h3]
        | simp [FilterKind.isOverlay, Nat.add_assoc]
  · refine ⟨[{ kind := .atrim ((sg.source_timerange.start : ℚ) / 1000) ((sg.source_timerange.duration : ℚ) / 1000), inputs := [.aOf idx] },
                 { kind := .asetptsReset, inputs := [.fOut g.filters.length] },
                 { kind := .atempo sg.playbackSpeed, inputs := [.fOut (g.filters.length + 1)] }], .fOut (g.filters.length + 2), ?_, ?_, ?_, ?_, ?_⟩ <;>
      first
        | (simp only [audioSegmentChain, hidx, segAudioKinds, FFmpegGraph.addFilter,
             if_pos h1, if_pos h2, if_neg h3]
           simp [FilterKind.isOverlay, Nat.add_assoc])
        | simp only [audioSegmentChain, hidx, segAudioKinds, FFmpegGraph.addFilter,
            if_pos h1, if_pos h2, if_neg h3]
        | simp [FilterKind.isOverlay, Nat.add_assoc]
  · refine ⟨[{ kind := .atrim ((sg.source_timerange.start : ℚ) / 1000) ((sg.source_timerange.duration : ℚ) / 1000), inputs := [.aOf idx] },
                 { kind := .asetptsReset, inputs := [.fOut g.filters.length] },
                 { kind := .adelay (ratToI32 ((sg.target_timerange.start : ℚ) / 1000 * 1000)), inputs := [.fOut (g.filters.length + 1)] }], .fOut (g.filters.length + 2), ?_, ?_, ?_, ?_, ?_⟩ <;>
      first
        | (simp only [audioSegmentChain, hidx, segAudioKinds, FFmpegGraph.addFilter,
             if_pos h1, if_neg h2, if_pos h3]
           simp [FilterKind.isOverlay, Nat.add_assoc])
        | simp only [audioSegmentChain, hidx, segAudioKinds, FFmpegGraph.addFilter,
            if_pos h1, if_neg h2, if_pos h3]
        | simp [FilterKind.isOverlay, Nat.add_assoc]
  · refine ⟨[{ kind := .atrim ((sg.source_timerange.start : ℚ) / 1000) ((sg.source_timerange.duration : ℚ) / 1000), inputs := [.aOf idx] },
                 { kind := .asetptsReset, inputs := [.fOut g.filters.length] }], .fOut (g.filters.length + 1), ?_, ?_, ?_, ?_, ?_⟩ <;>
      first
        | (simp only [audioSegmentChain, hidx, segAudioKinds, FFmpegGraph.addFilter,
             if_pos h1, if_neg h2, if_neg h3]
           simp [FilterKind.isOverlay, Nat.add_assoc])
        | simp only [audioSegmentChain, hidx, segAudioKinds, FFmpegGraph.addFilter,
            if_pos h1, if_neg h2, if_neg h3]
        | simp [FilterKind.isOverlay, Nat.add_assoc]
  · refine ⟨[{ kind := .atempo sg.playbackSpeed, inputs := [.aOf idx] },
                 { kind := .adelay (ratToI32 ((sg.target_timerange.start : ℚ) / 1000 * 1000)), inputs := [.fOut g.filters.length] }], .fOut (g.filters.length + 1), ?_, ?_, ?_, ?_, ?_⟩ <;>
      first
        | (simp only [audioSegmentChain, hidx, segAudioKinds, FFmpegGraph.addFilter,
             if_neg h1, if_pos h2, if_pos h3]
           simp [FilterKind.isOverlay, Nat.add_assoc])
        | simp only [audioSegmentChain, hidx, segAudioKinds, FFmpegGraph.addFilter,
            if_neg h1, if_pos h2, if_pos h3]
        | simp [FilterKind.isOverlay, Nat.add_assoc]
  · refine ⟨[{ kind := .atempo sg.playbackSpeed, inputs := [.aOf idx] }], .fOut g.filters.length, ?_, ?_, ?_, ?_, ?_⟩ <;>
      first
        | (simp only [audioSegmentChain, hidx, segAudioKinds, FFmpegGraph.addFilter,
             if_neg h1, if_pos h2, if_neg h3]
           simp [FilterKind.isOverlay, Nat.add_assoc])
        | simp only [audioSegmentChain, hidx, segAudioKinds, FFmpegGraph.addFilter,
            if_neg h1, if_pos h2, if_neg h3]
        | simp [FilterKind.isOverlay, Nat.add_assoc]
  · refine ⟨[{ kind := .adelay (ratToI32 ((sg.target_timerange.start : ℚ) / 1000 * 1000)), inputs := [.aOf idx] }], .fOut g.filters.length, ?_, ?_, ?_, ?_, ?_⟩ <;>
      first
        | (simp only [audioSegmentChain, hidx, segAudioKinds, FFmpegGraph.addFilter,
             if_neg h1, if_neg h2, if_pos h3]
           simp [FilterKind.isOverlay, Nat.add_assoc])
        | simp only [audioSegmentChain, hidx, segAudioKinds, FFmpegGraph.addFilter,
            if_neg h1, if_neg h2, if_pos h3]
        | simp [FilterKind.isOverlay, Nat.add_assoc]
  · refine ⟨[], .aOf idx, ?_, ?_, ?_, ?_, ?_⟩ <;>
      first
        | (simp only [audioSegmentChain, hidx, segAudioKinds, FFmpegGraph.addFilter,
             if_neg h1, if_neg h2, if_neg h3]
           simp [FilterKind.isOverlay, Nat.add_assoc])
        | simp only [audioSegmentChain, hidx, segAudioKinds, FFmpegGraph.addFilter,
            if_neg h1, if_neg h2, if_neg h3]
        | simp [FilterKind.isOverlay, Nat.add_assoc]


/-- Folding audioSegmentChain over a segment list appends the flatMap of segAudioKinds and collects one stream per segment. -/
theorem audioSegFold_spec (mi : List (String × ℕ)) (l : List Segment) (g : FFmpegGraph)
    (streams : List StreamRef)
    (hall : ∀ sg ∈ l, (lookupInput mi sg.material_id).isSome) :
    ∃ (delta : List FilterNode) (refs : List StreamRef),
      (l.foldl (audioSegmentChain mi) (g, streams)).1.filters = g.filters ++ delta ∧
      delta.map FilterNode.kind = l.flatMap segAudioKinds ∧
      (∀ n ∈ delta, n.kind.isOverlay = false) ∧
      (l.foldl (audioSegmentChain mi) (g, streams)).2 = streams ++ refs ∧
      refs.length = l.length ∧
      (l.foldl (audioSegmentChain mi) (g, streams)).1.inputs = g.inputs := by
  induction l generalizing g streams with
  | nil => exact ⟨[], [], by simp, by simp, by simp, by simp, rfl, by simp⟩
  | cons sg rest ih =>
      obtain ⟨d1, r1, hf1, hk1, ho1, hs1, hi1⟩ :=
        audioSegmentChain_spec mi sg g streams (hall sg (List.mem_cons_self sg rest))
      obtain ⟨d2, r2, hf2, hk2, ho2, hs2, hl2, hi2⟩ :=
        ih (audioSegmentChain mi (g, streams) sg).1 (audioSegmentChain mi (g, streams) sg).2
          (fun x hx => hall x (List.mem_cons_of_mem _ hx))
      have hpair : audioSegmentChain mi (g, streams) sg =
          ((audioSegmentChain mi (g, streams) sg).1,
           (audioSegmentChain mi (g, streams) sg).2) := rfl
      refine ⟨d1 ++ d2, r1 :: r2, ?_, ?_, ?_, ?_, ?_, ?_⟩
      · rw [List.foldl_cons, hpair] at *
        rw [hf2, hf1, List.append_assoc]
      · simp [hk1, hk2]
      · intro n hn
        rcases List.mem_append.mp hn with h | h
        · exact ho1 n h
        · exact ho2 n h
      · rw [List.foldl_cons, hpair] at *
        rw [hs2, hs1]
        simp
      · simp [hl2]
      · rw [List.foldl_cons, hpair] at *
        rw [hi2, hi1]

/-- Folding the per-track audio pass appends the kinds of all active (enabled, unmuted) audio-track segments in storage order. -/
theorem audioTrackFold_spec (mi : List (String × ℕ)) (ts : List Track) (g : FFmpegGraph)
    (streams : List StreamRef)
    (hall : ∀ t ∈ ts, ∀ sg ∈ t.segments, (lookupInput mi sg.material_id).isSome) :
    ∃ (delta : List FilterNode) (refs : List StreamRef),
      (ts.foldl (audioTrackChain mi) (g, streams)).1.filters = g.filters ++ delta ∧
      delta.map FilterNode.kind =
        ((((ts.filter fun t => t.enabled && !t.muted).map Track.segments).flatten).flatMap
          segAudioKinds) ∧
      (∀ n ∈ delta, n.kind.isOverlay = false) ∧
      (ts.foldl (audioTrackChain mi) (g, streams)).2 = streams ++ refs ∧
      refs.length =
        (((ts.filter fun t => t.enabled && !t.muted).map Track.segments).flatten).length ∧
      (ts.foldl (audioTrackChain mi) (g, streams)).1.inputs = g.inputs := by
  induction ts generalizing g streams with
  | nil => exact ⟨[], [], by simp, by simp, by simp, by simp, rfl, by simp⟩
  | cons t rest ih =>
      have hrest : ∀ x ∈ rest, ∀ sg ∈ x.segments, (lookupInput mi sg.material_id).isSome :=
        fun x hx => hall x (List.mem_cons_of_mem _ hx)
      by_cases hact : (t.enabled && !t.muted) = true
      · have hskip : (!t.enabled || t.muted) = false := by
          cases he : t.enabled <;> cases hm : t.muted <;> simp_all
        have hstep : audioTrackChain mi (g, streams) t =
            t.segments.foldl (audioSegmentChain mi) (g, streams) := by
          simp [audioTrackChain, hskip]
        obtain ⟨d1, r1, hf1, hk1, ho1, hs1, hl1, hi1⟩ :=
          audioSegFold_spec mi t.segments g streams (hall t (List.mem_cons_self t rest))
        obtain ⟨d2, r2, hf2, hk2, ho2, hs2, hl2, hi2⟩ :=
          ih (t.segments.foldl (audioSegmentChain mi) (g, streams)).1
            (t.segments.foldl (audioSegmentChain mi) (g, streams)).2 hrest
        have hpair : t.segments.foldl (audioSegmentChain mi) (g, streams) =
            ((t.segments.foldl (audioSegmentChain mi) (g, streams)).1,
             (t.segments.foldl (audioSegmentChain mi) (g, streams)).2) := rfl
        refine ⟨d1 ++ d2, r1 ++ r2, ?_, ?_, ?_, ?_, ?_, ?_⟩
        · rw [List.foldl_cons, hstep, hpair] at *
          rw [hf2, hf1, List.append_assoc]
        · simp [hk1, hk2, List.filter_cons, hact]
        · intro n hn
          rcases List.mem_append.mp hn with h | h
          · exact ho1 n h
          · exact ho2 n h
        · rw [List.foldl_cons, hstep, hpair] at *
          rw [hs2, hs1, List.append_assoc]
        · simp [List.filter_cons, hact, hl1, hl2]
        · rw [List.foldl_cons, hstep, hpair] at *
          rw [hi2, hi1]
      · have hskip : (!t.enabled || t.muted) = true := by
          cases he : t.enabled <;> cases hm : t.muted <;> simp_all
        have hstep : audioTrackChain mi (g, streams) t = (g, streams) := by
          simp [audioTrackChain, hskip]
        obtain ⟨d2, r2, hf2, hk2, ho2, hs2, hl2, hi2⟩ := ih g streams hrest
        exact ⟨d2, r2, by rw [List.foldl_cons, hstep]; exact hf2,
          by rw [hk2]; simp [List.filter_cons, hact],
          ho2,
          by rw [List.foldl_cons, hstep]; exact hs2,
          by rw [hl2]; simp [List.filter_cons, hact],
          by rw [List.foldl_cons, hstep]; exact hi2⟩

/-- No per-segment video filter kind is a volume, amix or anullsrc node. -/
theorem segVideoKinds_flags (sg : Segment) :
    ∀ k ∈ segVideoKinds sg,
      k.isAmix = false ∧ k.isAnullsrc = false ∧ k.isVolume = false := by
  intro k hk
  unfold segVideoKinds at hk
  rcases List.mem_append.mp hk with h | h
  · rcases List.mem_append.mp h with h1 | h1
    · cases hsc : sg.scale with
      | none => rw [hsc] at h1; simp at h1
      | some sc =>
          rw [hsc] at h1
          simp only [List.mem_singleton] at h1
          subst h1
          exact ⟨rfl, rfl, rfl⟩
    · by_cases hsp : sg.needsSpeedAdjustment
      · rw [if_pos hsp] at h1
        simp only [List.mem_singleton] at h1
        subst h1
        exact ⟨rfl, rfl, rfl⟩
      · rw [if_neg hsp] at h1
        simp at h1
  · simp only [List.mem_cons, List.mem_singleton] at h
    rcases h with rfl | rfl | h
    · exact ⟨rfl, rfl, rfl⟩
    · exact ⟨rfl, rfl, rfl⟩
    · simp at h

/-- No per-segment audio filter kind is a volume, amix or anullsrc node. -/
theorem segAudioKinds_flags (sg : Segment) :
    ∀ k ∈ segAudioKinds sg,
      k.isAmix = false ∧ k.isAnullsrc = false ∧ k.isVolume = false ∧
        k.isOverlay = false := by
  intro k hk
  unfold segAudioKinds at hk
  rcases List.mem_append.mp hk with h | h
  · rcases List.mem_append.mp h with h1 | h1
    · split at h1
      · simp only [List.mem_cons, List.mem_singleton] at h1
        rcases h1 with rfl | rfl | h1
        · exact ⟨rfl, rfl, rfl, rfl⟩
        · exact ⟨rfl, rfl, rfl, rfl⟩
        · simp at h1
      · simp at h1
    · split at h1
      · simp only [List.mem_singleton] at h1
        subst h1
        exact ⟨rfl, rfl, rfl, rfl⟩
      · simp at h1
  · split at h
    · simp only [List.mem_singleton] at h
      subst h
      exact ⟨rfl, rfl, rfl, rfl⟩
    · simp at h


/-- Master structure theorem for the compiler: the filter list is the background color node, then the reversed enabled video-track chains, then the per-audio-segment chains, then the mix tail; one audio stream is collected per active audio segment; overlays chain from the background to the final canvas; inputs are the first-occurrence material bindings; the mix tail is an anullsrc for zero streams, empty pass-through for one, and a single amix over all streams for two or more. -/
theorem compilePipeline_spec (s : EditSession)
    (href : ∀ sg ∈ allSegments s, (s.getMaterial sg.material_id).isSome) :
    ∃ (dv da dm : List FilterNode),
      (compilePipeline s).graph.filters =
        { kind := FilterKind.color s.stage.width s.stage.height
            ((s.totalDuration : ℚ) / 1000), inputs := [] } :: (dv ++ da ++ dm) ∧
      dv.map FilterNode.kind = (enabledVideoSegmentsRev s).flatMap segVideoKinds ∧
      da.map FilterNode.kind = (activeAudioSegments s).flatMap segAudioKinds ∧
      dm.map FilterNode.kind = mixKindsOf s (compilePipeline s).audioStreams.length ∧
      (compilePipeline s).audioStreams.length = (activeAudioSegments s).length ∧
      overlayScan (.fOut 0) 1 (dv ++ da ++ dm) = some (compilePipeline s).finalCanvas ∧
      (compilePipeline s).graph.inputs =
        (firstMaterialRefs s).filterMap (inputBindingOf s) ∧
      (2 ≤ (compilePipeline s).audioStreams.length →
        (compilePipeline s).graph.filters.getLast? =
          some { kind := .amix ((compilePipeline s).audioStreams.length : ℤ),
                 inputs := (compilePipeline s).audioStreams }) ∧
      ((compilePipeline s).audioStreams.length = 0 →
        (compilePipeline s).graph.filters.getLast? =
          some { kind := .anullsrc ((s.totalDuration : ℚ) / 1000), inputs := [] }) ∧
      ((compilePipeline s).audioStreams.length = 1 →
        (compilePipeline s).soundBg = (compilePipeline s).audioStreams.headD (.fOut 0)) := by
  obtain ⟨hbi, hbk, hbf⟩ := bindInputs_spec s { inputs := [], filters := [] } href
  have hlookup : ∀ sg ∈ allSegments s,
      (lookupInput (bindInputs s { inputs := [], filters := [] }).2 sg.material_id).isSome := by
    intro sg hsg
    rw [lookupInput_isSome_iff, hbk]
    rcases firstRefs_covers (allSegments s) [] sg hsg with h | h
    · simp at h
    · simpa [firstMaterialRefs] using h
  have hvall : ∀ t ∈ s.videoTracks.reverse, ∀ sg ∈ t.segments,
      (lookupInput (bindInputs s { inputs := [], filters := [] }).2 sg.material_id).isSome := by
    intro t ht sg hsg
    refine hlookup sg ?_
    refine List.mem_flatMap.mpr ⟨t, ?_, hsg⟩
    exact (List.mem_filter.mp (List.mem_reverse.mp ht)).1
  have haall : ∀ t ∈ s.audioTracks, ∀ sg ∈ t.segments,
      (lookupInput (bindInputs s { inputs := [], filters := [] }).2 sg.material_id).isSome := by
    intro t ht sg hsg
    refine hlookup sg ?_
    refine List.mem_flatMap.mpr ⟨t, ?_, hsg⟩
    exact (List.mem_filter.mp ht).1
  unfold compilePipeline
  dsimp only
  set b := bindInputs s { inputs := [], filters := [] } with hbdef
  set bgp := b.1.addFilterNoInputs
    (.color s.stage.width s.stage.height ((s.totalDuration : ℚ) / 1000)) with hbgdef
  have hbgf : bgp.1.filters =
      [{ kind := FilterKind.color s.stage.width s.stage.height
           ((s.totalDuration : ℚ) / 1000), inputs := [] }] := by
    rw [hbgdef]
    show b.1.filters ++ _ = _
    rw [hbf]
    rfl
  have hbgr : bgp.2 = .fOut 0 := by
    rw [hbgdef]
    show StreamRef.fOut b.1.filters.length = _
    rw [hbf]
    rfl
  have hbgi : bgp.1.inputs = b.1.inputs := rfl
  obtain ⟨dv, hvf, hvk, hvs, hvi⟩ :=
    videoTrackFold_spec b.2 s.videoTracks.reverse bgp.1 bgp.2 hvall
  have hvphase : videoPhase s b.2 bgp.1 bgp.2 =
      s.videoTracks.reverse.foldl (videoTrackChain b.2) (bgp.1, bgp.2) := rfl
  set v := videoPhase s b.2 bgp.1 bgp.2 with hvdef
  rw [← hvphase] at hvf hvs hvi
  obtain ⟨da, refs, haf, hak, hao, has, hal, hai⟩ :=
    audioTrackFold_spec b.2 s.audioTracks v.1 [] haall
  have haphase : audioPhase s b.2 v.1 =
      s.audioTracks.foldl (audioTrackChain b.2) (v.1, []) := rfl
  set a := audioPhase s b.2 v.1 with hadef
  rw [← haphase] at haf has hai
  have hstreams : a.2 = refs := by
    rw [has]
    simp
  have hlen : a.2.length = (activeAudioSegments s).length := by
    rw [hstreams, hal]
    rfl
  have hvfilters : v.1.filters =
      { kind := FilterKind.color s.stage.width s.stage.height
          ((s.totalDuration : ℚ) / 1000), inputs := [] } :: dv := by
    rw [hvf, hbgf]
    rfl
  have hafilters : a.1.filters =
      { kind := FilterKind.color s.stage.width s.stage.height
          ((s.totalDuration : ℚ) / 1000), inputs := [] } :: (dv ++ da) := by
    rw [haf, hvfilters]
    rfl
  have hvk2 : dv.map FilterNode.kind = (enabledVideoSegmentsRev s).flatMap segVideoKinds := hvk
  have hak2 : da.map FilterNode.kind = (activeAudioSegments s).flatMap segAudioKinds := hak
  have hascan : overlayScan (.fOut 0) 1 dv = some v.2 := by
    have := hvs
    rw [hbgr, hbgf] at this
    simpa using this
  have hvinputs : v.1.inputs = b.1.inputs := by
    rw [hvi, hbgi]
  have hainputs : a.1.inputs = b.1.inputs := by
    rw [hai, hvinputs]
  have hbinputs : b.1.inputs = (firstMaterialRefs s).filterMap (inputBindingOf s) := by
    rw [hbi]
    rfl
  -- case split on the collected streams for the mixing step
  cases hra : a.2 with
  | nil =>
      rw [hra] at hlen
      have hmix : mixPhase s a.1 [] =
          (⟨a.1.inputs, a.1.filters ++
             [(⟨FilterKind.anullsrc ((s.totalDuration : ℚ) / 1000), []⟩ : FilterNode)]⟩,
           StreamRef.fOut a.1.filters.length) := rfl
      refine ⟨dv, da, [(⟨FilterKind.anullsrc ((s.totalDuration : ℚ) / 1000), []⟩ : FilterNode)],
        ?_, hvk2, hak2, ?_, ?_, ?_, ?_, ?_, ?_, ?_⟩
      · rw [hmix]
        show a.1.filters ++ _ = _
        rw [hafilters]
        simp
      · simp [mixKindsOf]
      · exact hlen
      · have h1 : overlayScan (.fOut 0) 1 (dv ++ (da ++
            [(⟨FilterKind.anullsrc ((s.totalDuration : ℚ) / 1000), []⟩ : FilterNode)])) =
            overlayScan v.2 (1 + dv.length) (da ++
              [(⟨FilterKind.anullsrc ((s.totalDuration : ℚ) / 1000), []⟩ : FilterNode)]) :=
          overlayScan_append dv _ _ _ _ hascan
        rw [List.append_assoc, h1]
        refine overlayScan_no_overlay _ _ _ ?_
        intro n hn
        rcases List.mem_append.mp hn with h | h
        · exact hao n h
        · simp only [List.mem_singleton] at h
          subst h
          rfl
      · rw [hmix]
        show a.1.inputs = _
        rw [hainputs, hbinputs]
      · intro hcontra
        simp at hcontra
      · intro hzero
        rw [hmix]
        show (a.1.filters ++ _).getLast? = _
        rw [List.getLast?_concat]
      · intro hone
        simp at hone
  | cons r rest =>
      cases rest with
      | nil =>
          rw [hra] at hlen
          have hmix : mixPhase s a.1 [r] = (a.1, r) := rfl
          refine ⟨dv, da, [], ?_, hvk2, hak2, ?_, ?_, ?_, ?_, ?_, ?_, ?_⟩
          · rw [hmix]
            dsimp only
            rw [hafilters]
            simp
          · simp [mixKindsOf]
          · exact hlen
          · have h1 : overlayScan (.fOut 0) 1 (dv ++ (da ++ [])) =
                overlayScan v.2 (1 + dv.length) (da ++ []) :=
              overlayScan_append dv _ _ _ _ hascan
            rw [List.append_assoc, h1]
            refine overlayScan_no_overlay _ _ _ ?_
            intro n hn
            rcases List.mem_append.mp hn with h | h
            · exact hao n h
            · simp at h
          · rw [hmix]
            dsimp only
            rw [hainputs, hbinputs]
          · intro hcontra
            simp at hcontra
          · intro hcontra
            simp at hcontra
          · intro hone
            rw [hmix]
            rfl
      | cons r2 rest2 =>
          rw [hra] at hlen
          have hmix : mixPhase s a.1 (r :: r2 :: rest2) =
              (⟨a.1.inputs, a.1.filters ++
                 [(⟨FilterKind.amix ((r :: r2 :: rest2).length : ℤ),
                    r :: r2 :: rest2⟩ : FilterNode)]⟩,
               StreamRef.fOut a.1.filters.length) := rfl
          refine ⟨dv, da,
            [(⟨FilterKind.amix ((r :: r2 :: rest2).length : ℤ), r :: r2 :: rest2⟩ : FilterNode)],
            ?_, hvk2, hak2, ?_, ?_, ?_, ?_, ?_, ?_, ?_⟩
          · rw [hmix]
            show a.1.filters ++ _ = _
            rw [hafilters]
            simp
          · simp [mixKindsOf]
          · exact hlen
          · have h1 : overlayScan (.fOut 0) 1 (dv ++ (da ++
                [(⟨FilterKind.amix ((r :: r2 :: rest2).length : ℤ),
                   r :: r2 :: rest2⟩ : FilterNode)])) =
                overlayScan v.2 (1 + dv.length) (da ++
                  [(⟨FilterKind.amix ((r :: r2 :: rest2).length : ℤ),
                     r :: r2 :: rest2⟩ : FilterNode)]) :=
              overlayScan_append dv _ _ _ _ hascan
            rw [List.append_assoc, h1]
            refine overlayScan_no_overlay _ _ _ ?_
            intro n hn
            rcases List.mem_append.mp hn with h | h
            · exact hao n h
            · simp only [List.mem_singleton] at h
              subst h
              rfl
          · rw [hmix]
            show a.1.inputs = _
            rw [hainputs, hbinputs]
          · intro hge
            rw [hmix]
            show (a.1.filters ++ _).getLast? = _
            rw [List.getLast?_concat]
          · intro hzero
            simp at hzero
          · intro hone
            simp at hone


/-- exportSession succeeds exactly when session validation succeeds, and then returns mkCommand. -/
theorem exportSession_ok (s : EditSession) (opts : ExportOptions) (cmd : FFmpegCommand)
    (h : exportSession s opts = .ok cmd) :
    s.validate = .ok () ∧ cmd = mkCommand s opts := by
  rw [exportSession] at h
  cases hv : s.validate with
  | error e =>
      rw [hv] at h
      simp [Bind.bind, Except.bind] at h
  | ok u =>
      cases u
      rw [hv] at h
      simp only [Bind.bind, Except.bind, Except.ok.injEq] at h
      exact ⟨rfl, h.symm⟩

/-- When validation succeeds, exportSession returns the compiled command. -/
theorem export_ok_of_validate (s : EditSession) (opts : ExportOptions)
    (hv : s.validate = .ok ()) :
    exportSession s opts = .ok (mkCommand s opts) := by
  simp [exportSession, Bind.bind, Except.bind, hv]

/-- Counting nodes by a predicate on their kind equals counting the mapped kind list. -/
theorem countP_kind (d : List FilterNode) (p : FilterKind → Bool) :
    (d.countP fun n => p n.kind) = (d.map FilterNode.kind).countP p := by
  induction d with
  | nil => rfl
  | cons n rest ih => simp [List.countP_cons, ih]

/-- A predicate false on every member of a list counts zero. -/
theorem countP_eq_zero_of_flags (ks : List FilterKind) (p : FilterKind → Bool)
    (hall : ∀ k ∈ ks, p k = false) : ks.countP p = 0 := by
  refine List.countP_eq_zero.mpr ?_
  intro k hk
  simp [hall k hk]

/-- Kinds of the video phase are never volume, anullsrc or amix nodes. -/
theorem videoKinds_no_amix (s : EditSession) :
    ∀ k ∈ (enabledVideoSegmentsRev s).flatMap segVideoKinds,
      k.isAmix = false ∧ k.isAnullsrc = false ∧ k.isVolume = false := by
  intro k hk
  obtain ⟨sg, _, hmem⟩ := List.mem_flatMap.mp hk
  exact segVideoKinds_flags sg k hmem

/-- Kinds of the per-segment audio chains are never volume, anullsrc or amix nodes. -/
theorem audioKinds_no_amix (s : EditSession) :
    ∀ k ∈ (activeAudioSegments s).flatMap segAudioKinds,
      k.isAmix = false ∧ k.isAnullsrc = false ∧ k.isVolume = false := by
  intro k hk
  obtain ⟨sg, _, hmem⟩ := List.mem_flatMap.mp hk
  obtain ⟨h1, h2, h3, _⟩ := segAudioKinds_flags sg k hmem
  exact ⟨h1, h2, h3⟩

/-- The mix tail never contains a volume node. -/
theorem mixKindsOf_no_volume (s : EditSession) (n : ℕ) :
    ∀ k ∈ mixKindsOf s n, k.isVolume = false := by
  intro k hk
  unfold mixKindsOf at hk
  split at hk
  · simp only [List.mem_singleton] at hk
    subst hk
    rfl
  · split at hk
    · simp at hk
    · simp only [List.mem_singleton] at hk
      subst hk
      rfl


/-- C1: in every compiled command the filter graph starts with the background color node, enabled video tracks contribute their segment chains in reverse of storage order (so the earliest track in session.tracks is composited last, on top), disabled video tracks contribute nothing, and the overlay nodes chain from the background canvas to the final canvas. -/
theorem export_video_z_order (s : EditSession) (opts : ExportOptions) (cmd : FFmpegCommand)
    (h : exportSession s opts = .ok cmd) :
    cmd.graph.filters.map FilterNode.kind =
      FilterKind.color s.stage.width s.stage.height ((s.totalDuration : ℚ) / 1000) ::
        ((enabledVideoSegmentsRev s).flatMap segVideoKinds ++
         ((activeAudioSegments s).flatMap segAudioKinds ++
          mixKindsOf s (activeAudioSegments s).length)) ∧
    overlayScan (.fOut 0) 1 (cmd.graph.filters.drop 1) =
      some (compilePipeline s).finalCanvas := by
  obtain ⟨hval, hcmd⟩ := exportSession_ok s opts cmd h
  subst hcmd
  obtain ⟨dv, da, dm, hfil, hkv, hka, hkm, hlen, hscan, hinp, _, _, _⟩ :=
    compilePipeline_spec s (validate_refsBound s hval)
  have hgraph : (mkCommand s opts).graph = (compilePipeline s).graph := rfl
  rw [hgraph, hfil]
  constructor
  · simp only [List.map_cons, List.map_append]
    rw [hkv, hka, hkm, hlen]
    simp [List.append_assoc]
  · rw [List.drop_one, List.tail_cons]
    exact hscan

/-- Helper shared by the C3 theorem and counterexample: a compiled graph contains no volume filter node. -/
theorem export_no_volume_countP (s : EditSession) (opts : ExportOptions) (cmd : FFmpegCommand)
    (h : exportSession s opts = .ok cmd) :
    (cmd.graph.filters.countP fun n => n.kind.isVolume) = 0 := by
  obtain ⟨hval, hcmd⟩ := exportSession_ok s opts cmd h
  subst hcmd
  obtain ⟨dv, da, dm, hfil, hkv, hka, hkm, hlen, hscan, hinp, _, _, _⟩ :=
    compilePipeline_spec s (validate_refsBound s hval)
  have hgraph : (mkCommand s opts).graph = (compilePipeline s).graph := rfl
  rw [hgraph, hfil, countP_kind]
  simp only [List.map_cons, List.map_append]
  rw [hkv, hka, hkm]
  rw [List.countP_cons]
  simp only [List.countP_append]
  rw [countP_eq_zero_of_flags _ _ fun k hk => (videoKinds_no_amix s k hk).2.2,
      countP_eq_zero_of_flags _ _ fun k hk => (audioKinds_no_amix s k hk).2.2,
      countP_eq_zero_of_flags _ _ (mixKindsOf_no_volume s _)]
  simp [FilterKind.isVolume]

/-- C3 (amended): export never emits a volume filter node; the owning track's volume factor is ignored by the audio chain, which goes directly from the trim step to the tempo step. -/
theorem export_emits_no_volume (s : EditSession) (opts : ExportOptions) (cmd : FFmpegCommand)
    (h : exportSession s opts = .ok cmd) :
    (cmd.graph.filters.countP fun n => n.kind.isVolume) = 0 :=
  export_no_volume_countP s opts cmd h


/-- Segments collected by firstRefs come from the scanned list. -/
theorem firstRefs_subset (l : List Segment) (seen : List String) :
    ∀ sg ∈ firstRefs l seen, sg ∈ l := by
  induction l generalizing seen with
  | nil => intro sg h; cases h
  | cons a rest ih =>
      intro sg hsg
      simp only [firstRefs] at hsg
      by_cases hm : a.material_id ∈ seen
      · rw [if_pos hm] at hsg
        exact List.mem_cons_of_mem _ (ih seen sg hsg)
      · rw [if_neg hm] at hsg
        rcases List.mem_cons.mp hsg with rfl | hx
        · exact List.mem_cons_self _ _
        · exact List.mem_cons_of_mem _ (ih _ sg hx)

/-- C8: every compiled command binds exactly one external input per distinct material id referenced by any segment, keyed by the first referencing segment in track/segment storage order and trimmed to that segment's source window; every referenced material id is covered. -/
theorem export_input_dedup (s : EditSession) (opts : ExportOptions) (cmd : FFmpegCommand)
    (h : exportSession s opts = .ok cmd) :
    cmd.graph.inputs = (firstMaterialRefs s).filterMap (inputBindingOf s) ∧
    (∀ sg ∈ firstMaterialRefs s, (inputBindingOf s sg).isSome) ∧
    ((firstMaterialRefs s).map Segment.material_id).Nodup ∧
    ((allSegments s).all fun sg =>
      decide (sg.material_id ∈ (firstMaterialRefs s).map Segment.material_id)) = true := by
  obtain ⟨hval, hcmd⟩ := exportSession_ok s opts cmd h
  subst hcmd
  have href := validate_refsBound s hval
  obtain ⟨dv, da, dm, hfil, hkv, hka, hkm, hlen, hscan, hinp, _, _, _⟩ :=
    compilePipeline_spec s href
  refine ⟨hinp, ?_, (firstRefs_nodup (allSegments s) []).1, ?_⟩
  · intro sg hsg
    have hmem : sg ∈ allSegments s :=
      firstRefs_subset (allSegments s) [] sg hsg
    have hms := href sg hmem
    cases hgm : s.getMaterial sg.material_id with
    | none => rw [hgm] at hms; simp at hms
    | some m => simp [inputBindingOf, hgm]
  · refine List.all_eq_true.mpr ?_
    intro sg hsg
    rcases firstRefs_covers (allSegments s) [] sg hsg with hc | hc
    · simp at hc
    · simpa [firstMaterialRefs] using hc

/-- C2: in every compiled command, zero collected audio streams yield exactly one anullsrc node sized to the session total duration in seconds and no amix node; exactly one stream passes through unchanged with no amix and no anullsrc; two or more streams yield exactly one amix node referencing all of them. -/
theorem export_audio_mix_arity (s : EditSession) (opts : ExportOptions) (cmd : FFmpegCommand)
    (h : exportSession s opts = .ok cmd) :
    (compilePipeline s).audioStreams.length = (activeAudioSegments s).length ∧
    ((activeAudioSegments s).length = 0 →
      (cmd.graph.filters.countP fun n => n.kind.isAnullsrc) = 1 ∧
      cmd.graph.filters.getLast? =
        some { kind := .anullsrc ((s.totalDuration : ℚ) / 1000), inputs := [] } ∧
      (cmd.graph.filters.countP fun n => n.kind.isAmix) = 0) ∧
    ((activeAudioSegments s).length = 1 →
      (cmd.graph.filters.countP fun n => n.kind.isAmix) = 0 ∧
      (cmd.graph.filters.countP fun n => n.kind.isAnullsrc) = 0 ∧
      (compilePipeline s).soundBg = (compilePipeline s).audioStreams.headD (.fOut 0)) ∧
    (2 ≤ (activeAudioSegments s).length →
      (cmd.graph.filters.countP fun n => n.kind.isAmix) = 1 ∧
      cmd.graph.filters.getLast? =
        some { kind := .amix (((activeAudioSegments s).length : ℕ) : ℤ),
               inputs := (compilePipeline s).audioStreams } ∧
      (cmd.graph.filters.countP fun n => n.kind.isAnullsrc) = 0) := by
  obtain ⟨hval, hcmd⟩ := exportSession_ok s opts cmd h
  subst hcmd
  obtain ⟨dv, da, dm, hfil, hkv, hka, hkm, hlen, hscan, hinp, hge2, hzero, hone⟩ :=
    compilePipeline_spec s (validate_refsBound s hval)
  have hgraph : (mkCommand s opts).graph = (compilePipeline s).graph := rfl
  have hcountAmix : (((compilePipeline s).graph.filters.countP fun n => n.kind.isAmix)) =
      (mixKindsOf s (activeAudioSegments s).length).countP FilterKind.isAmix := by
    rw [hfil, countP_kind]
    simp only [List.map_cons, List.map_append]
    rw [hkv, hka, hkm, hlen]
    rw [List.countP_cons]
    simp only [List.countP_append]
    rw [countP_eq_zero_of_flags _ _ fun k hk => (videoKinds_no_amix s k hk).1,
        countP_eq_zero_of_flags _ _ fun k hk => (audioKinds_no_amix s k hk).1]
    simp [FilterKind.isAmix]
  have hcountNull : (((compilePipeline s).graph.filters.countP fun n => n.kind.isAnullsrc)) =
      (mixKindsOf s (activeAudioSegments s).length).countP FilterKind.isAnullsrc := by
    rw [hfil, countP_kind]
    simp only [List.map_cons, List.map_append]
    rw [hkv, hka, hkm, hlen]
    rw [List.countP_cons]
    simp only [List.countP_append]
    rw [countP_eq_zero_of_flags _ _ fun k hk => (videoKinds_no_amix s k hk).2.1,
        countP_eq_zero_of_flags _ _ fun k hk => (audioKinds_no_amix s k hk).2.1]
    simp [FilterKind.isAnullsrc]
  refine ⟨hlen, ?_, ?_, ?_⟩
  · intro hn
    refine ⟨?_, ?_, ?_⟩
    · rw [hgraph, hcountNull, hn]
      simp [mixKindsOf, FilterKind.isAnullsrc]
    · rw [hgraph]
      exact hzero (by rw [hlen, hn])
    · rw [hgraph, hcountAmix, hn]
      simp [mixKindsOf, FilterKind.isAmix]
  · intro hn
    refine ⟨?_, ?_, ?_⟩
    · rw [hgraph, hcountAmix, hn]
      simp [mixKindsOf, FilterKind.isAmix]
    · rw [hgraph, hcountNull, hn]
      simp [mixKindsOf, FilterKind.isAnullsrc]
    · exact hone (by rw [hlen, hn])
  · intro hn
    have hn0 : ¬((activeAudioSegments s).length = 0) := by omega
    have hn1 : ¬((activeAudioSegments s).length = 1) := by omega
    refine ⟨?_, ?_, ?_⟩
    · rw [hgraph, hcountAmix]
      simp [mixKindsOf, hn0, hn1, FilterKind.isAmix]
    · rw [hgraph]
      have := hge2 (by rw [hlen]; exact hn)
      rw [this, hlen]
    · rw [hgraph, hcountNull]
      simp [mixKindsOf, hn0, hn1, FilterKind.isAnullsrc]


/-- C1 witness: the z-order theorem instantiated at the concrete two-video-track session sessC1. -/
theorem export_video_z_order_witness :
    (mkCommand sessC1 optsV).graph.filters.map FilterNode.kind =
      FilterKind.color sessC1.stage.width sessC1.stage.height
          ((sessC1.totalDuration : ℚ) / 1000) ::
        ((enabledVideoSegmentsRev sessC1).flatMap segVideoKinds ++
         ((activeAudioSegments sessC1).flatMap segAudioKinds ++
          mixKindsOf sessC1 (activeAudioSegments sessC1).length)) ∧
    overlayScan (.fOut 0) 1 ((mkCommand sessC1 optsV).graph.filters.drop 1) =
      some (compilePipeline sessC1).finalCanvas :=
  export_video_z_order sessC1 optsV (mkCommand sessC1 optsV)
    (export_ok_of_validate sessC1 optsV (by decide))

/-- C2 witness: the mix-arity theorem instantiated at sessC2, which collects two audio streams. -/
theorem export_audio_mix_arity_witness :
    (compilePipeline sessC2).audioStreams.length = (activeAudioSegments sessC2).length ∧
    ((activeAudioSegments sessC2).length = 0 →
      ((mkCommand sessC2 optsV).graph.filters.countP fun n => n.kind.isAnullsrc) = 1 ∧
      (mkCommand sessC2 optsV).graph.filters.getLast? =
        some { kind := .anullsrc ((sessC2.totalDuration : ℚ) / 1000), inputs := [] } ∧
      ((mkCommand sessC2 optsV).graph.filters.countP fun n => n.kind.isAmix) = 0) ∧
    ((activeAudioSegments sessC2).length = 1 →
      ((mkCommand sessC2 optsV).graph.filters.countP fun n => n.kind.isAmix) = 0 ∧
      ((mkCommand sessC2 optsV).graph.filters.countP fun n => n.kind.isAnullsrc) = 0 ∧
      (compilePipeline sessC2).soundBg =
        (compilePipeline sessC2).audioStreams.headD (.fOut 0)) ∧
    (2 ≤ (activeAudioSegments sessC2).length →
      ((mkCommand sessC2 optsV).graph.filters.countP fun n => n.kind.isAmix) = 1 ∧
      (mkCommand sessC2 optsV).graph.filters.getLast? =
        some { kind := .amix ((((activeAudioSegments sessC2).length : ℕ)) : ℤ),
               inputs := (compilePipeline sessC2).audioStreams } ∧
      ((mkCommand sessC2 optsV).graph.filters.countP fun n => n.kind.isAnullsrc) = 0) :=
  export_audio_mix_arity sessC2 optsV (mkCommand sessC2 optsV)
    (export_ok_of_validate sessC2 optsV (by decide))

/-- C3 witness: the amended theorem instantiated at sessC3. -/
theorem export_emits_no_volume_witness :
    ((mkCommand sessC3 optsV).graph.filters.countP fun n => n.kind.isVolume) = 0 :=
  export_emits_no_volume sessC3 optsV (mkCommand sessC3 optsV)
    (export_ok_of_validate sessC3 optsV (by decide))

/-- C8 witness: the dedup theorem instantiated at sessC2, whose two segments share one material. -/
theorem export_input_dedup_witness :
    (mkCommand sessC2 optsV).graph.inputs =
      (firstMaterialRefs sessC2).filterMap (inputBindingOf sessC2) ∧
    (∀ sg ∈ firstMaterialRefs sessC2, (inputBindingOf sessC2 sg).isSome) ∧
    ((firstMaterialRefs sessC2).map Segment.material_id).Nodup ∧
    ((allSegments sessC2).all fun sg =>
      decide (sg.material_id ∈ (firstMaterialRefs sessC2).map Segment.material_id)) = true :=
  export_input_dedup sessC2 optsV (mkCommand sessC2 optsV)
    (export_ok_of_validate sessC2 optsV (by decide))

/-- C3 counterexample: a valid session whose single enabled, unmuted audio track has volume one half exports successfully, yet the compiled graph contains no volume node, contradicting the claimed volume filter. -/
theorem volume_ignored_on_export :
    sessC3.validate = .ok () ∧
    sessC3.tracks.map Track.volume = [mkRat 1 2] ∧
    sessC3.tracks.map Track.enabled = [true] ∧
    sessC3.tracks.map Track.muted = [false] ∧
    (sessC3.tracks.map fun t => t.segments.length) = [1] ∧
    exportSession sessC3 optsV = .ok (mkCommand sessC3 optsV) ∧
    ((mkCommand sessC3 optsV).graph.filters.countP fun n => n.kind.isVolume) = 0 := by
  refine ⟨by decide, by decide, by decide, by decide, by decide, ?_, ?_⟩
  · exact export_ok_of_validate sessC3 optsV (by decide)
  · exact export_no_volume_countP sessC3 optsV (mkCommand sessC3 optsV)
      (export_ok_of_validate sessC3 optsV (by decide))

end Cluv
